import Mathlib

/-!
Verification of the judge-gated orchestrator core: scope classification,
protocol integrity guard, gate engine, verdict writing, atomic state writes,
and the judge driver, embedded shallowly from the Python sources
(`tools/judge.py`, `tools/lib/scope.py`, `tools/lib/protocol_guard.py`,
`tools/lib/state.py`, `tools-v1-backup/lib/gate_interface.py`).
-/

namespace JudgeGated

/-! ## ScopeClassifier (`tools/lib/scope.py`)

The scope module delegates pattern matching to the external `pathspec`
library (`gitwildmatch` lines).  The matcher below is modelled from the
spec's description of those semantics; `classify_files` and
`check_forbidden_files` are translated directly from `tools/lib/scope.py`. -/

/-- Modelled from the spec: a pattern segment consisting only of `*`
matches the empty remainder of a path segment. -/
def segMatchEmpty : List Char → Bool
  | [] => true
  | p :: ps => p = '*' && segMatchEmpty ps

/-- Modelled from the spec: one step of single-segment glob matching
against the head character `c`, where `next` matches a pattern remainder
against the rest of the segment. -/
def segMatchStep (c : Char) (next : List Char → Bool) : List Char → Bool
  | [] => false
  | p :: ps =>
    if p = '*' then segMatchStep c next ps || next (p :: ps)
    else if p = '?' then next ps
    else p = c && next ps

/-- Modelled from the spec: single-segment glob matching as used by
`pathspec` gitwildmatch — `*` matches any run of characters within one
path segment, `?` matches one character; character classes and negated
patterns are outside the model.  Structured by recursion on the path
segment so that it evaluates by kernel reduction. -/
def segMatchFn : List Char → List Char → Bool
  | [] => segMatchEmpty
  | c :: cs => fun ps => segMatchStep c (segMatchFn cs) ps

/-- `segMatch ps cs`: the glob pattern segment `ps` matches the path
segment `cs`. -/
def segMatch (ps cs : List Char) : Bool := segMatchFn cs ps

/-- Modelled from the spec: a segment pattern list consisting only of `**`
segments matches the empty path remainder. -/
def segsMatchEmpty : List (List Char) → Bool
  | [] => true
  | p :: ps => p = ['*', '*'] && segsMatchEmpty ps

/-- Modelled from the spec: one step of segment-list matching against the
head path segment `s`; an exhausted pattern matches any remaining path
(gitignore directory containment), and `**` crosses directory components. -/
def segsMatchStep (s : List Char) (next : List (List Char) → Bool) :
    List (List Char) → Bool
  | [] => true
  | p :: ps =>
    if p = ['*', '*'] then segsMatchStep s next ps || next (p :: ps)
    else segMatch p s && next ps

/-- Modelled from the spec: segment-list matching — `**` crosses any number
of directory components; a pattern that matches a leading directory prefix
of the path matches the whole path. -/
def segsMatchFn : List (List Char) → List (List Char) → Bool
  | [] => segsMatchEmpty
  | s :: ss => fun ps => segsMatchStep s (segsMatchFn ss) ps

/-- `segsMatch ps ss`: the segment pattern list `ps` matches the path
segment list `ss`. -/
def segsMatch (ps ss : List (List Char)) : Bool := segsMatchFn ss ps

/-- Split a character list into `/`-separated segments. -/
def splitSegsAux : List Char → List Char → List (List Char)
  | [], acc => [acc.reverse]
  | c :: cs, acc =>
    if c = '/' then acc.reverse :: splitSegsAux cs [] else splitSegsAux cs (c :: acc)

/-- Split a relative path string into its `/`-separated segments. -/
def splitSegs (s : String) : List (List Char) := splitSegsAux s.toList []

/-- Modelled from the spec: `pathspec.PathSpec.from_lines('gitwildmatch',
patterns).match_file(path)` for a single non-negated pattern — gitwildmatch
anchoring: a pattern containing a slash is anchored to the relative root; a
pattern without a slash matches at any directory level (equivalent to a
`**/` prefix). -/
def gitwildMatch (pattern path : String) : Bool :=
  let psegs := splitSegs pattern
  let psegs := if pattern.toList.contains '/' then psegs else ['*', '*'] :: psegs
  segsMatch psegs (splitSegs path)

/-- `matches_pattern` from `tools/lib/scope.py`: true iff the path matches
any of the glob patterns. -/
def matches_pattern (path : String) (patterns : List String) : Bool :=
  patterns.any (fun p => gitwildMatch p path)

/-- `classify_files` from `tools/lib/scope.py` (lines 22-49): partition the
changed files into `(in_scope, out_of_scope)`; a file is in scope iff it
matches an include pattern and no exclude pattern. -/
def classify_files (changed_files include_patterns exclude_patterns : List String) :
    List String × List String :=
  match changed_files with
  | [] => ([], [])
  | f :: rest =>
    let (ins, outs) := classify_files rest include_patterns exclude_patterns
    let included := matches_pattern f include_patterns
    let excluded := matches_pattern f exclude_patterns
    if included && !excluded then (f :: ins, outs) else (ins, f :: outs)

/-- `check_forbidden_files` from `tools/lib/scope.py` (lines 70-77). -/
def check_forbidden_files (changed_files forbid_patterns : List String) : List String :=
  if forbid_patterns.isEmpty then []
  else changed_files.filter (fun f => matches_pattern f forbid_patterns)

/-- The in-scope predicate applied to each file by `classify_files`. -/
def inScopeP (include_patterns exclude_patterns : List String) (f : String) : Bool :=
  matches_pattern f include_patterns && !(matches_pattern f exclude_patterns)

lemma classify_files_eq_filter (changed inc exc : List String) :
    classify_files changed inc exc =
      (changed.filter (inScopeP inc exc),
       changed.filter (fun f => !(inScopeP inc exc f))) := by
  induction changed with
  | nil => rfl
  | cons f rest ih =>
    simp only [classify_files, ih, inScopeP, List.filter_cons]
    by_cases h : (matches_pattern f inc && !(matches_pattern f exc)) = true
    · simp [h]
    · simp only [Bool.not_eq_true] at h
      simp [h]

lemma matches_pattern_nil (f : String) : matches_pattern f [] = false := rfl

lemma list_inter_eq_filter (l₁ l₂ : List String) :
    l₁.inter l₂ = l₁.filter (fun a => l₂.elem a) := rfl

/-- C6: Scope partition laws — for every list of changed paths and every
include/exclude pattern lists, `classify_files` returns a pair whose union
is exactly the input list and whose intersection is empty; a path is in
scope iff it matches at least one include pattern and no exclude pattern;
an empty include list puts every path out of scope; and the concrete
scenario `include=["src/**/*.ext"]`, `exclude=["**/test_*.ext"]`,
`changed=["src/a.ext","src/test_b.ext","docs/readme.md"]` yields
`(["src/a.ext"], ["src/test_b.ext","docs/readme.md"])`. -/
theorem scope_partition_laws :
    (∀ changed inc exc : List String,
      ((classify_files changed inc exc).1 ++ (classify_files changed inc exc).2).Perm
        changed) ∧
    (∀ changed inc exc : List String,
      ((classify_files changed inc exc).1).inter (classify_files changed inc exc).2
        = []) ∧
    (∀ (changed inc exc : List String) (f : String),
      f ∈ (classify_files changed inc exc).1 ↔
        f ∈ changed ∧ matches_pattern f inc = true ∧ matches_pattern f exc = false) ∧
    (∀ changed exc : List String, classify_files changed [] exc = ([], changed)) ∧
    classify_files ["src/a.ext", "src/test_b.ext", "docs/readme.md"]
        ["src/**/*.ext"] ["**/test_*.ext"]
      = (["src/a.ext"], ["src/test_b.ext", "docs/readme.md"]) := by
  refine ⟨?_, ?_, ?_, ?_, by decide⟩
  · intro changed inc exc
    rw [classify_files_eq_filter]
    exact List.filter_append_perm _ changed
  · intro changed inc exc
    rw [classify_files_eq_filter]
    rw [list_inter_eq_filter, List.filter_eq_nil_iff]
    intro f hf
    simp only [List.mem_filter] at hf
    simp [List.elem_eq_mem, List.mem_filter, hf.2]
  · intro changed inc exc f
    rw [classify_files_eq_filter]
    simp [List.mem_filter, inScopeP]
  · intro changed exc
    rw [classify_files_eq_filter]
    simp [inScopeP, matches_pattern_nil]

/-! ## IntegrityGuard (`tools/lib/protocol_guard.py`)

`verify_protocol_lock` and `verify_phase_binding` are translated from
`tools/lib/protocol_guard.py`.  File contents enter only through their
SHA-256 hashes, so the filesystem is abstracted as a map from relative
path to live content hash (`none` = file absent).  Issues are represented
as an inductive type whose constructors carry exactly the data the Python
code interpolates into each message string. -/

/-- The issues produced by the integrity guard. -/
inductive Issue
  | manifestMissing
  | judgeTamper (expected actual : String)
  | protocolFileMissing (rel : String)
  | protocolFileModified (rel expected actual : String)
  | protectedChanged (f : String)
  | planFileMissing
  | planChanged (expected actual : String)
  | manifestFileMissing
  | manifestChanged (expected actual : String)
  deriving DecidableEq, Repr

/-- The `protocol_lock` section of the plan (`plan.protocol_lock`). -/
structure LockCfg where
  protected_globs : List String
  allow_in_phases : List String

/-- Inputs of `verify_protocol_lock`: the plan's lock config (`none` when
`protocol_lock` is absent or empty), the parsed manifest `files` mapping
(`none` when `.repo/protocol_manifest.json` is missing), the live hash of
each file by relative path, the changed files reported by git (`none` when
the git call raises, which the source swallows), and the `fnmatch.fnmatch`
primitive kept abstract (external library). -/
structure GuardEnv where
  lock : Option LockCfg
  manifest : Option (List (String × String))
  live : String → Option String
  changed : Option (List String)
  fnmatch : String → String → Bool

/-- Relative path of the evaluator's own source (`judge_rel`). -/
def judgeRel : String := "tools/judge.py"

/-- One iteration of the manifest verification loop in
`verify_protocol_lock` (lines 69-80). -/
def manifestEntryIssues (live : String → Option String) (entry : String × String) :
    List Issue :=
  match live entry.1 with
  | none => [.protocolFileMissing entry.1]
  | some actual =>
    if actual ≠ entry.2 then [.protocolFileModified entry.1 entry.2 actual] else []

/-- The protected-glob scan of `verify_protocol_lock` (lines 82-105):
changed files matching a protected glob and not already covered by the
manifest. -/
def protectedScanIssues (lock : LockCfg) (files : List (String × String))
    (fnmatch : String → String → Bool) : Option (List String) → List Issue
  | none => []
  | some changed =>
    (changed.filter (fun f =>
      lock.protected_globs.any (fun g => fnmatch f g) && (files.lookup f).isNone)).map
      .protectedChanged

/-- Result of the self-integrity check at the top of
`verify_protocol_lock` (lines 49-62): `none` when reading the judge source
raises, `some none` when no tamper is found (or the judge is not listed),
`some (some t)` when the tamper issue `t` is produced. -/
def selfCheckResult (env : GuardEnv) (files : List (String × String)) :
    Option (Option Issue) :=
  match files.lookup judgeRel with
  | none => some none
  | some expected =>
    match env.live judgeRel with
    | none => none
    | some actual =>
      if actual ≠ expected then some (some (.judgeTamper expected actual)) else some none

/-- `verify_protocol_lock` from `tools/lib/protocol_guard.py` (lines
14-107).  Returns `none` when the function raises (only possible while
hashing the judge source), otherwise `some issues`. -/
def verify_protocol_lock (env : GuardEnv) (phase_id : String) :
    Option (List Issue) :=
  match env.lock with
  | none => some []
  | some lock =>
    match env.manifest with
    | none => some [.manifestMissing]
    | some files =>
      match selfCheckResult env files with
      | none => none
      | some (some t) => some [t]
      | some none =>
        if phase_id ∈ lock.allow_in_phases then some []
        else
          some (files.flatMap (manifestEntryIssues env.live) ++
            protectedScanIssues lock files env.fnmatch env.changed)

/-- `verify_phase_binding` from `tools/lib/protocol_guard.py` (lines
110-154): the record captured at phase start, with each key optional. -/
structure BindingRecord where
  plan_sha : Option String
  manifest_sha : Option String

/-- Relative path of the plan file. -/
def planPath : String := ".repo/plan.yaml"

/-- Relative path of the protocol manifest. -/
def manifestPath : String := ".repo/protocol_manifest.json"

/-- `verify_phase_binding` from `tools/lib/protocol_guard.py` (lines
110-154). -/
def verify_phase_binding (live : String → Option String) (current : BindingRecord) :
    List Issue :=
  (match current.plan_sha with
   | none => []
   | some expected =>
     match live planPath with
     | none => [.planFileMissing]
     | some actual =>
       if actual ≠ expected then [.planChanged expected actual] else []) ++
  (match current.manifest_sha with
   | none => []
   | some expected =>
     match live manifestPath with
     | none => [.manifestFileMissing]
     | some actual =>
       if actual ≠ expected then [.manifestChanged expected actual] else [])

/-! ## Judge driver (`tools/judge.py`, `judge_phase` lines 1621-1777 and
`main` lines 1780-1811)

The driver is modelled as a pure function over an environment capturing
the outcome of each external interaction, returning the Python return
value (or `sys.exit` / uncaught exception) together with the ordered list
of observable events: integrity checks performed, gates run, and verdict
files written. -/

/-- Observable events of one `judge_phase` run, in execution order. -/
inductive Ev
  | bindingCheck
  | selfCheck
  | manifestCheck
  | gateRun (name : String)
  | critiqueWrite
  | approvalWrite
  deriving DecidableEq, Repr

/-- How a `judge_phase` call ends: a normal return value, a `sys.exit`
propagating out of it, or an uncaught exception. -/
inductive JOutcome
  | ret (code : Nat)
  | sysExit (code : Nat)
  | exn
  deriving DecidableEq, Repr

/-- `verify_protocol_lock` together with its check events: `selfCheck` is
emitted when the judge's own hash is computed (the judge is listed in the
manifest), `manifestCheck` when the manifest loop and protected-glob scan
run. -/
def verify_protocol_lock_tr (env : GuardEnv) (phase_id : String) :
    Option (List Issue) × List Ev :=
  match env.lock with
  | none => (some [], [])
  | some lock =>
    match env.manifest with
    | none => (some [.manifestMissing], [])
    | some files =>
      let selfEvs : List Ev :=
        match files.lookup judgeRel with
        | none => []
        | some _ => [.selfCheck]
      match selfCheckResult env files with
      | none => (none, selfEvs)
      | some (some t) => (some [t], selfEvs)
      | some none =>
        if phase_id ∈ lock.allow_in_phases then (some [], selfEvs)
        else
          (some (files.flatMap (manifestEntryIssues env.live) ++
             protectedScanIssues lock files env.fnmatch env.changed),
           selfEvs ++ [.manifestCheck])

lemma verify_protocol_lock_tr_fst (env : GuardEnv) (phase_id : String) :
    (verify_protocol_lock_tr env phase_id).1 = verify_protocol_lock env phase_id := by
  unfold verify_protocol_lock_tr verify_protocol_lock
  rcases env.lock with _ | lock
  · rfl
  · rcases hm : env.manifest with _ | files
    · rfl
    · rcases hs : selfCheckResult env files with _ | (_ | t)
      · simp [hs]
      · simp [hs]
        split <;> rfl
      · simp [hs]

/-- Per-phase gate configuration read by `judge_phase`: whether the lint
gate must pass and whether the LLM review gate is enabled. -/
structure PhaseCfg where
  lintMustPass : Bool
  llmEnabled : Bool

/-- Environment of one `judge_phase` run.  `currentJson` is the parse of
`.repo/briefs/CURRENT.json`: `none` when the file is absent, `some none`
when it is malformed (both tolerated by the source), `some (some r)` when
it parses to the binding record `r`.  The issue lists are the values the
individual gate checks return for this phase. -/
structure JudgeEnv where
  planMissing : Bool
  planInvalidYaml : Bool
  validatorImportFails : Bool
  validationErrors : List String
  phaseFound : Bool
  currentJson : Option (Option BindingRecord)
  guard : GuardEnv
  phase : PhaseCfg
  llmAvailable : Bool
  artifactsIssues : List String
  testsIssues : List String
  lintIssues : List String
  docsIssues : List String
  driftIssues : List String
  llmIssues : List String

/-- The gate-running section of `judge_phase` (lines 1679-1731): artifacts
and tests always, lint when `must_pass`, docs and drift always, LLM review
when available and enabled.  Returns the accumulated issues and the gate
events in execution order. -/
def gateSection (env : JudgeEnv) : List String × List Ev :=
  (env.artifactsIssues ++ env.testsIssues ++
     (if env.phase.lintMustPass then env.lintIssues else []) ++
     env.docsIssues ++ env.driftIssues ++
     (if env.llmAvailable && env.phase.llmEnabled then env.llmIssues else []),
   [Ev.gateRun "artifacts", Ev.gateRun "tests"] ++
     (if env.phase.lintMustPass then [Ev.gateRun "lint"] else []) ++
     [Ev.gateRun "docs", Ev.gateRun "drift"] ++
     (if env.llmAvailable && env.phase.llmEnabled then [Ev.gateRun "llm_review"] else []))

/-- `judge_phase` from `tools/judge.py` (lines 1621-1777): load and
validate the plan (`load_plan` exits the process with code 1 when the plan
file is missing or its YAML is invalid), resolve the phase, run the
phase-binding check when `CURRENT.json` parses, then `verify_protocol_lock`
(self-integrity first, then manifest), and only then the gates; any issue
set rejects with a critique, otherwise an approval is written. -/
def judge_phase (env : JudgeEnv) (phase_id : String) : JOutcome × List Ev :=
  if env.planMissing then (.sysExit 1, [])
  else if env.planInvalidYaml then (.sysExit 1, [])
  else if env.validatorImportFails then (.exn, [])
  else if env.validationErrors ≠ [] then (.ret 2, [])
  else if env.phaseFound = false then (.ret 2, [])
  else
    let bindingStep : List Issue × List Ev :=
      match env.currentJson with
      | some (some current) =>
        (verify_phase_binding env.guard.live current, [Ev.bindingCheck])
      | _ => ([], [])
    if bindingStep.1 ≠ [] then (.ret 1, bindingStep.2 ++ [Ev.critiqueWrite])
    else
      match verify_protocol_lock_tr env.guard phase_id with
      | (none, guardEvs) => (.exn, bindingStep.2 ++ guardEvs)
      | (some lockIssues, guardEvs) =>
        if lockIssues ≠ [] then
          (.ret 1, bindingStep.2 ++ guardEvs ++ [Ev.critiqueWrite])
        else
          let gates := gateSection env
          if gates.1 ≠ [] then
            (.ret 1, bindingStep.2 ++ guardEvs ++ gates.2 ++ [Ev.critiqueWrite])
          else
            (.ret 0, bindingStep.2 ++ guardEvs ++ gates.2 ++ [Ev.approvalWrite])

/-- Environment of the `main` entry point (`tools/judge.py` lines
1780-1811) plus the module-import preamble: missing `pyyaml` calls
`sys.exit(1)` and a missing `pathspec` raises at import time, both ending
the process with code 1 before `main` runs. -/
structure MainEnv where
  coreDepsMissing : Bool
  noArgs : Bool
  lockTimeout : Bool
  jenv : JudgeEnv
  phase_id : String

/-- Process exit code of one judge invocation: import failures exit 1,
usage error returns 1, a lock timeout returns 2, an uncaught exception in
`judge_phase` is converted to 2, and a `sys.exit` inside it passes its
code through. -/
def main_exit (env : MainEnv) : Nat :=
  if env.coreDepsMissing then 1
  else if env.noArgs then 1
  else if env.lockTimeout then 2
  else
    match (judge_phase env.jenv env.phase_id).1 with
    | .ret c => c
    | .sysExit c => c
    | .exn => 2

lemma selfCheckResult_tamper {env : GuardEnv} {files : List (String × String)}
    {expected actual : String}
    (hjud : files.lookup judgeRel = some expected)
    (hlive : env.live judgeRel = some actual) (hne : actual ≠ expected) :
    selfCheckResult env files = some (some (.judgeTamper expected actual)) := by
  simp [selfCheckResult, hjud, hlive, hne]

lemma guard_tr_tamper {env : GuardEnv} {lock : LockCfg} {files : List (String × String)}
    {expected actual : String} (pid : String)
    (hlock : env.lock = some lock) (hman : env.manifest = some files)
    (hjud : files.lookup judgeRel = some expected)
    (hlive : env.live judgeRel = some actual) (hne : actual ≠ expected) :
    verify_protocol_lock_tr env pid
      = (some [Issue.judgeTamper expected actual], [Ev.selfCheck]) := by
  simp [verify_protocol_lock_tr, hlock, hman, hjud,
    selfCheckResult_tamper hjud hlive hne]

/-- C1: Self-integrity precedence — when the manifest records a hash for
`tools/judge.py` and the live hash differs, `verify_protocol_lock` returns
exactly the one critical judge-tamper issue (for every value of the other
manifest entries, protected globs and changed files, so no other check
contributes), and `judge_phase` rejects with a critique, performs no
manifest scan and runs no gate. -/
theorem self_integrity_precedence
    (env : JudgeEnv) (pid expected actual : String) (lock : LockCfg)
    (files : List (String × String))
    (hlock : env.guard.lock = some lock)
    (hman : env.guard.manifest = some files)
    (hjud : files.lookup judgeRel = some expected)
    (hlive : env.guard.live judgeRel = some actual)
    (hne : actual ≠ expected)
    (hpm : env.planMissing = false) (hpy : env.planInvalidYaml = false)
    (hvi : env.validatorImportFails = false)
    (hve : env.validationErrors = [])
    (hpf : env.phaseFound = true) :
    verify_protocol_lock env.guard pid = some [Issue.judgeTamper expected actual] ∧
    (judge_phase env pid).1 = JOutcome.ret 1 ∧
    Ev.critiqueWrite ∈ (judge_phase env pid).2 ∧
    Ev.manifestCheck ∉ (judge_phase env pid).2 ∧
    ∀ n, Ev.gateRun n ∉ (judge_phase env pid).2 := by
  have htr := @guard_tr_tamper env.guard lock files expected actual pid hlock hman hjud hlive hne
  have hfn : verify_protocol_lock env.guard pid
      = some [Issue.judgeTamper expected actual] := by
    rw [← verify_protocol_lock_tr_fst, htr]
  refine ⟨hfn, ?_⟩
  unfold judge_phase
  rw [hpm, hpy, hvi, hve, hpf]
  simp only [if_false, ite_false, ne_eq, not_true_eq_false, if_true]
  rcases hc : env.currentJson with _ | (_ | cur)
  · simp [hc, htr]
  · simp [hc, htr]
  · by_cases hb : verify_phase_binding env.guard.live cur = []
    · simp [hc, hb, htr]
    · simp [hc, hb, htr]

/-- Concrete guard environment with a tampered judge source: the manifest
records hash `h1` for `tools/judge.py` while the live file hashes to `h2`. -/
def tamperGuardEnv : GuardEnv :=
  { lock := some { protected_globs := ["tools/*"], allow_in_phases := ["MAINT"] }
    manifest := some [(judgeRel, "h1"), ("tools/phasectl.py", "h3")]
    live := fun p =>
      if p = judgeRel then some "h2"
      else if p = "tools/phasectl.py" then some "h3" else none
    changed := some ["tools/judge.py", "src/a.py"]
    fnmatch := fun _ _ => true }

/-- Concrete judge environment built on `tamperGuardEnv` with a clean
binding record and clean gates. -/
def tamperJudgeEnv : JudgeEnv :=
  { planMissing := false, planInvalidYaml := false, validatorImportFails := false
    validationErrors := [], phaseFound := true
    currentJson := some (some { plan_sha := none, manifest_sha := none })
    guard := tamperGuardEnv
    phase := { lintMustPass := true, llmEnabled := false }
    llmAvailable := true
    artifactsIssues := [], testsIssues := [], lintIssues := []
    docsIssues := [], driftIssues := [], llmIssues := [] }

/-- Witness for C1: at the concrete tampered environment the guard returns
exactly the tamper issue, the judge rejects, and neither the manifest scan
nor any gate runs. -/
theorem self_integrity_precedence_witness :
    verify_protocol_lock tamperJudgeEnv.guard "P1"
        = some [Issue.judgeTamper "h1" "h2"] ∧
    (judge_phase tamperJudgeEnv "P1").1 = JOutcome.ret 1 ∧
    Ev.critiqueWrite ∈ (judge_phase tamperJudgeEnv "P1").2 ∧
    Ev.manifestCheck ∉ (judge_phase tamperJudgeEnv "P1").2 ∧
    Ev.gateRun "artifacts" ∉ (judge_phase tamperJudgeEnv "P1").2 := by
  have h := self_integrity_precedence tamperJudgeEnv "P1" "h1" "h2"
    { protected_globs := ["tools/*"], allow_in_phases := ["MAINT"] }
    [(judgeRel, "h1"), ("tools/phasectl.py", "h3")]
    rfl rfl (by decide) (by decide) (by decide) rfl rfl rfl rfl rfl
  exact ⟨h.1, h.2.1, h.2.2.1, h.2.2.2.1, h.2.2.2.2 "artifacts"⟩

/-- Recognizer for the critical judge-tamper issue. -/
def Issue.isTamper : Issue → Bool
  | .judgeTamper _ _ => true
  | _ => false

lemma manifestEntryIssues_no_tamper (live : String → Option String)
    (entry : String × String) :
    ∀ i ∈ manifestEntryIssues live entry, i.isTamper = false := by
  intro i hi
  unfold manifestEntryIssues at hi
  rcases h : live entry.1 with _ | actual <;> rw [h] at hi <;> dsimp only at hi
  · simp at hi
    subst hi; rfl
  · by_cases hac : actual = entry.2
    · rw [if_neg (fun hc => hc hac)] at hi
      cases hi
    · rw [if_pos hac] at hi
      simp at hi
      subst hi; rfl

lemma protectedScanIssues_no_tamper (lock : LockCfg) (files : List (String × String))
    (fnmatch : String → String → Bool) (changed : Option (List String)) :
    ∀ i ∈ protectedScanIssues lock files fnmatch changed, i.isTamper = false := by
  intro i hi
  rcases changed with _ | c
  · cases hi
  · simp only [protectedScanIssues, List.mem_map] at hi
    obtain ⟨f, _, rfl⟩ := hi
    rfl

lemma lookup_none_keys (k : String) (files : List (String × String)) :
    files.lookup k = none → ∀ p ∈ files, p.1 ≠ k := by
  induction files with
  | nil => intro _ p hp; cases hp
  | cons a l ih =>
    intro h p hp
    obtain ⟨k', v'⟩ := a
    by_cases hk : (k == k') = true
    · simp [List.lookup, hk] at h
    · have hk' : (k == k') = false := by simpa using hk
      simp only [List.lookup, hk'] at h
      rcases List.mem_cons.1 hp with rfl | hp'
      · intro he
        dsimp at he
        subst he
        simp at hk'
      · exact ih h p hp'

lemma flatMap_manifest_congr (live₁ live₂ : String → Option String)
    (files : List (String × String))
    (h : ∀ p ∈ files, live₁ p.1 = live₂ p.1) :
    files.flatMap (manifestEntryIssues live₁)
      = files.flatMap (manifestEntryIssues live₂) := by
  induction files with
  | nil => rfl
  | cons a l ih =>
    simp only [List.flatMap_cons]
    rw [ih (fun p hp => h p (List.mem_cons_of_mem a hp))]
    congr 1
    unfold manifestEntryIssues
    rw [h a (List.mem_cons_self a l)]

/-- C10: `verify_protocol_lock` reports the judge-tamper issue iff the
manifest lists `tools/judge.py` with a hash differing from the live one;
when the judge is unlisted, no self-integrity check happens (the result is
invariant under the judge's live hash) and, outside the allow-list, the
manifest scan still runs; when the phase is allow-listed, a listed,
mismatched judge still yields exactly the tamper issue before manifest
verification is suspended. -/
theorem judge_tamper_reporting
    (env : GuardEnv) (pid actual : String) (lock : LockCfg)
    (files : List (String × String))
    (hlock : env.lock = some lock) (hman : env.manifest = some files)
    (hlive : env.live judgeRel = some actual) :
    ((∃ i ∈ (verify_protocol_lock env pid).getD [], i.isTamper = true) ↔
       (∃ e, files.lookup judgeRel = some e ∧ e ≠ actual)) ∧
    (files.lookup judgeRel = none →
      ∀ h' : Option String,
        verify_protocol_lock
          { env with live := fun p => if p = judgeRel then h' else env.live p } pid
          = verify_protocol_lock env pid) ∧
    (∀ e, files.lookup judgeRel = some e → e ≠ actual →
      pid ∈ lock.allow_in_phases →
      verify_protocol_lock env pid = some [Issue.judgeTamper e actual]) ∧
    (files.lookup judgeRel = none → pid ∉ lock.allow_in_phases →
      (verify_protocol_lock_tr env pid).2 = [Ev.manifestCheck]) := by
  have hrest : ∀ i ∈ files.flatMap (manifestEntryIssues env.live) ++
      protectedScanIssues lock files env.fnmatch env.changed, i.isTamper = false := by
    intro i hi
    rcases List.mem_append.1 hi with hi | hi
    · obtain ⟨entry, _, hie⟩ := List.mem_flatMap.1 hi
      exact manifestEntryIssues_no_tamper env.live entry i hie
    · exact protectedScanIssues_no_tamper lock files env.fnmatch env.changed i hi
  have hcomp : ∀ (env' : GuardEnv), env'.lock = some lock →
      env'.manifest = some files → selfCheckResult env' files = some none →
      verify_protocol_lock env' pid =
        if pid ∈ lock.allow_in_phases then some []
        else some (files.flatMap (manifestEntryIssues env'.live) ++
          protectedScanIssues lock files env'.fnmatch env'.changed) := by
    intro env' h₁ h₂ h₃
    simp [verify_protocol_lock, h₁, h₂, h₃]
  refine ⟨?_, ?_, ?_, ?_⟩
  · rcases hj : files.lookup judgeRel with _ | e
    · have hs : selfCheckResult env files = some none := by
        simp [selfCheckResult, hj]
      constructor
      · intro ⟨i, hi, hit⟩
        exfalso
        rw [hcomp env hlock hman hs] at hi
        split at hi
        · simp at hi
        · simp only [Option.getD_some] at hi
          rw [hrest i hi] at hit
          cases hit
      · rintro ⟨e, he, -⟩
        exact Option.noConfusion he
    · by_cases hne : e = actual
      · subst hne
        have hs : selfCheckResult env files = some none := by
          simp [selfCheckResult, hj, hlive]
        constructor
        · intro ⟨i, hi, hit⟩
          exfalso
          rw [hcomp env hlock hman hs] at hi
          split at hi
          · simp at hi
          · simp only [Option.getD_some] at hi
            rw [hrest i hi] at hit
            cases hit
        · rintro ⟨e', he', hne'⟩
          injection he' with he''
          exact absurd he''.symm hne'
      · have hs : selfCheckResult env files
            = some (some (.judgeTamper e actual)) :=
          selfCheckResult_tamper hj hlive (fun h => hne h.symm)
        simp only [verify_protocol_lock, hlock, hman, hs]
        constructor
        · intro _
          exact ⟨e, rfl, hne⟩
        · intro _
          exact ⟨Issue.judgeTamper e actual, by simp, rfl⟩
  · intro hj h'
    have hkeys := lookup_none_keys judgeRel files hj
    have hs₂ : selfCheckResult
        { env with live := fun p => if p = judgeRel then h' else env.live p } files
        = some none := by
      simp [selfCheckResult, hj]
    have hs₁ : selfCheckResult env files = some none := by
      simp [selfCheckResult, hj]
    rw [hcomp { env with live := fun p => if p = judgeRel then h' else env.live p }
          hlock hman hs₂,
        hcomp env hlock hman hs₁]
    split
    · rfl
    · rw [flatMap_manifest_congr
        (fun p => if p = judgeRel then h' else env.live p) env.live files
        (fun p hp => by simp [hkeys p hp])]
  · intro e hj hne hall
    have hs : selfCheckResult env files = some (some (.judgeTamper e actual)) :=
      selfCheckResult_tamper hj hlive (fun h => hne h.symm)
    simp [verify_protocol_lock, hlock, hman, hs]
  · intro hj hall
    have hs : selfCheckResult env files = some none := by
      simp [selfCheckResult, hj]
    simp [verify_protocol_lock_tr, hlock, hman, hj, hs, hall]

/-- Witness for C10: with the phase allow-listed and the judge listed but
mismatched, the guard still reports exactly the tamper issue. -/
theorem judge_tamper_reporting_witness :
    verify_protocol_lock tamperGuardEnv "MAINT"
      = some [Issue.judgeTamper "h1" "h2"] :=
  (judge_tamper_reporting tamperGuardEnv "MAINT" "h2"
      { protected_globs := ["tools/*"], allow_in_phases := ["MAINT"] }
      [(judgeRel, "h1"), ("tools/phasectl.py", "h3")]
      rfl rfl (by decide)).2.2.1 "h1" (by decide) (by decide) (by decide)

/-! ## Ordering of the integrity checks within a judge run -/

/-- True exactly on gate-execution events. -/
def evIsGate : Ev → Bool
  | .gateRun _ => true
  | _ => false

/-- True exactly on the three integrity-check events. -/
def evIsCheck : Ev → Bool
  | .bindingCheck => true
  | .selfCheck => true
  | .manifestCheck => true
  | _ => false

/-- Boolean equality test against a fixed event. -/
def isEv (e : Ev) : Ev → Bool := fun x => x == e

/-- `ordered p q tr`: in the trace `tr`, every event satisfying `p` occurs
strictly before every event satisfying `q` (vacuously true when either
kind is absent). -/
def ordered (p q : Ev → Bool) (tr : List Ev) : Prop :=
  List.Pairwise (fun a b => ¬(q a = true ∧ p b = true)) tr

instance (p q : Ev → Bool) (tr : List Ev) : Decidable (ordered p q tr) := by
  unfold ordered
  infer_instance

lemma ordered_of_no_q (p q : Ev → Bool) (tr : List Ev)
    (h : ∀ e ∈ tr, q e = false) : ordered p q tr := by
  induction tr with
  | nil => exact List.Pairwise.nil
  | cons a l ih =>
    refine List.Pairwise.cons ?_ (ih fun e he => h e (List.mem_cons_of_mem a he))
    intro b hb hc
    rw [h a (List.mem_cons_self a l)] at hc
    cases hc.1

lemma ordered_of_no_p (p q : Ev → Bool) (tr : List Ev)
    (h : ∀ e ∈ tr, p e = false) : ordered p q tr := by
  induction tr with
  | nil => exact List.Pairwise.nil
  | cons a l ih =>
    refine List.Pairwise.cons ?_ (ih fun e he => h e (List.mem_cons_of_mem a he))
    intro b hb hc
    rw [h b (List.mem_cons_of_mem a hb)] at hc
    cases hc.2

lemma ordered_split (p q : Ev → Bool) (xs ys : List Ev)
    (hx : ∀ e ∈ xs, q e = false) (hy : ∀ e ∈ ys, p e = false) :
    ordered p q (xs ++ ys) := by
  rw [ordered, List.pairwise_append]
  refine ⟨ordered_of_no_q p q xs hx, ordered_of_no_p p q ys hy, ?_⟩
  intro a ha b hb hc
  rw [hx a ha] at hc
  cases hc.1

lemma not_check_no_ev (e : Ev) (h : evIsCheck e = false) :
    isEv Ev.bindingCheck e = false ∧ isEv Ev.selfCheck e = false ∧
      isEv Ev.manifestCheck e = false := by
  cases e with
  | bindingCheck => cases h
  | selfCheck => cases h
  | manifestCheck => cases h
  | gateRun n => exact ⟨rfl, rfl, rfl⟩
  | critiqueWrite => exact ⟨rfl, rfl, rfl⟩
  | approvalWrite => exact ⟨rfl, rfl, rfl⟩

lemma guard_tr_evs_shape (env : GuardEnv) (pid : String) :
    (verify_protocol_lock_tr env pid).2 = [] ∨
    (verify_protocol_lock_tr env pid).2 = [Ev.selfCheck] ∨
    (verify_protocol_lock_tr env pid).2 = [Ev.manifestCheck] ∨
    (verify_protocol_lock_tr env pid).2 = [Ev.selfCheck, Ev.manifestCheck] := by
  unfold verify_protocol_lock_tr
  rcases env.lock with _ | lock
  · exact Or.inl rfl
  · rcases env.manifest with _ | files
    · exact Or.inl rfl
    · rcases hj : files.lookup judgeRel with _ | e <;>
        rcases hs : selfCheckResult env files with _ | (_ | t) <;>
        simp only [hj, hs] <;> (try split) <;> simp

lemma gateSection_evs (env : JudgeEnv) :
    ∀ e ∈ (gateSection env).2, ∃ n, e = Ev.gateRun n := by
  intro e he
  simp only [gateSection] at he
  by_cases h1 : env.phase.lintMustPass <;>
    by_cases h2 : (env.llmAvailable && env.phase.llmEnabled) = true <;>
    simp [h1, h2, List.mem_append, List.mem_cons] at he <;>
    rcases he with rfl | rfl | rfl | rfl | rfl | rfl <;>
    exact ⟨_, rfl⟩

/-- The shape every `judge_phase` trace has: binding events, then guard
events (self check before manifest check), then events that are not
integrity checks. -/
def TraceShape (tr : List Ev) : Prop :=
  ∃ b g t : List Ev,
    tr = b ++ (g ++ t) ∧
    (∀ e ∈ b, e = Ev.bindingCheck) ∧
    (g = [] ∨ g = [Ev.selfCheck] ∨ g = [Ev.manifestCheck] ∨
      g = [Ev.selfCheck, Ev.manifestCheck]) ∧
    (∀ e ∈ t, evIsCheck e = false)

lemma traceShape_nil : TraceShape [] :=
  ⟨[], [], [], rfl, by simp, Or.inl rfl, by simp⟩

lemma traceShape_guard (bindingEvs guardEvs t : List Ev)
    (hb : ∀ e ∈ bindingEvs, e = Ev.bindingCheck)
    (hg : guardEvs = [] ∨ guardEvs = [Ev.selfCheck] ∨
      guardEvs = [Ev.manifestCheck] ∨ guardEvs = [Ev.selfCheck, Ev.manifestCheck])
    (ht : ∀ e ∈ t, evIsCheck e = false) :
    TraceShape (bindingEvs ++ (guardEvs ++ t)) :=
  ⟨bindingEvs, guardEvs, t, rfl, hb, hg, ht⟩

lemma gateTail_no_check (env : JudgeEnv) (v : Ev) (hv : evIsCheck v = false) :
    ∀ e ∈ (gateSection env).2 ++ [v], evIsCheck e = false := by
  intro e he
  rcases List.mem_append.1 he with h | h
  · obtain ⟨n, rfl⟩ := gateSection_evs env e h
    rfl
  · simp at h
    subst h
    exact hv

lemma judge_phase_trace_shape (env : JudgeEnv) (pid : String) :
    TraceShape (judge_phase env pid).2 := by
  unfold judge_phase
  by_cases h1 : env.planMissing = true
  · rw [if_pos h1]; exact traceShape_nil
  rw [if_neg h1]
  by_cases h2 : env.planInvalidYaml = true
  · rw [if_pos h2]; exact traceShape_nil
  rw [if_neg h2]
  by_cases h3 : env.validatorImportFails = true
  · rw [if_pos h3]; exact traceShape_nil
  rw [if_neg h3]
  by_cases h4 : env.validationErrors ≠ []
  · rw [if_pos h4]; exact traceShape_nil
  rw [if_neg h4]
  by_cases h5 : env.phaseFound = false
  · rw [if_pos h5]; exact traceShape_nil
  rw [if_neg h5]
  have main : ∀ bindingIssues : List Issue, ∀ bindingEvs : List Ev,
      (∀ e ∈ bindingEvs, e = Ev.bindingCheck) →
      TraceShape
        ((if bindingIssues ≠ [] then
            (JOutcome.ret 1, bindingEvs ++ [Ev.critiqueWrite])
          else
            match verify_protocol_lock_tr env.guard pid with
            | (none, guardEvs) => (JOutcome.exn, bindingEvs ++ guardEvs)
            | (some lockIssues, guardEvs) =>
              if lockIssues ≠ [] then
                (JOutcome.ret 1, bindingEvs ++ guardEvs ++ [Ev.critiqueWrite])
              else
                let gates := gateSection env
                if gates.1 ≠ [] then
                  (JOutcome.ret 1,
                    bindingEvs ++ guardEvs ++ gates.2 ++ [Ev.critiqueWrite])
                else
                  (JOutcome.ret 0,
                    bindingEvs ++ guardEvs ++ gates.2 ++ [Ev.approvalWrite])).2) := by
    intro bindingIssues bindingEvs hb
    by_cases hbi : bindingIssues ≠ []
    · rw [if_pos hbi]
      have : bindingEvs ++ [Ev.critiqueWrite] = bindingEvs ++ ([] ++ [Ev.critiqueWrite]) := by
        simp
      rw [this]
      exact traceShape_guard _ _ _ hb (Or.inl rfl) (by simp [evIsCheck])
    · rw [if_neg hbi]
      split
      case _ guardEvs heq =>
        have hg : guardEvs = [] ∨ guardEvs = [Ev.selfCheck] ∨
            guardEvs = [Ev.manifestCheck] ∨
            guardEvs = [Ev.selfCheck, Ev.manifestCheck] := by
          have h := guard_tr_evs_shape env.guard pid
          rw [heq] at h
          exact h
        show TraceShape (bindingEvs ++ guardEvs)
        rw [show bindingEvs ++ guardEvs = bindingEvs ++ (guardEvs ++ []) by simp]
        exact traceShape_guard _ _ _ hb hg (by simp)
      case _ lockIssues guardEvs heq =>
        have hg : guardEvs = [] ∨ guardEvs = [Ev.selfCheck] ∨
            guardEvs = [Ev.manifestCheck] ∨
            guardEvs = [Ev.selfCheck, Ev.manifestCheck] := by
          have h := guard_tr_evs_shape env.guard pid
          rw [heq] at h
          exact h
        by_cases hli : lockIssues ≠ []
        · rw [if_pos hli]
          show TraceShape (bindingEvs ++ guardEvs ++ [Ev.critiqueWrite])
          rw [show bindingEvs ++ guardEvs ++ [Ev.critiqueWrite]
              = bindingEvs ++ (guardEvs ++ [Ev.critiqueWrite]) by simp]
          exact traceShape_guard _ _ _ hb hg (by simp [evIsCheck])
        · rw [if_neg hli]
          dsimp only
          by_cases hga : (gateSection env).1 ≠ []
          · rw [if_pos hga]
            show TraceShape
              (bindingEvs ++ guardEvs ++ (gateSection env).2 ++ [Ev.critiqueWrite])
            rw [show bindingEvs ++ guardEvs ++ (gateSection env).2 ++ [Ev.critiqueWrite]
                = bindingEvs ++ (guardEvs ++ ((gateSection env).2 ++ [Ev.critiqueWrite]))
                by simp]
            exact traceShape_guard _ _ _ hb hg (gateTail_no_check env _ rfl)
          · rw [if_neg hga]
            show TraceShape
              (bindingEvs ++ guardEvs ++ (gateSection env).2 ++ [Ev.approvalWrite])
            rw [show bindingEvs ++ guardEvs ++ (gateSection env).2 ++ [Ev.approvalWrite]
                = bindingEvs ++ (guardEvs ++ ((gateSection env).2 ++ [Ev.approvalWrite]))
                by simp]
            exact traceShape_guard _ _ _ hb hg (gateTail_no_check env _ rfl)
  rcases hc : env.currentJson with _ | (_ | cur)
  · exact main [] [] (by simp)
  · exact main [] [] (by simp)
  · exact main (verify_phase_binding env.guard.live cur) [Ev.bindingCheck] (by simp)

lemma traceShape_ordered {tr : List Ev} (h : TraceShape tr) :
    ordered (isEv Ev.bindingCheck) (isEv Ev.selfCheck) tr ∧
    ordered (isEv Ev.bindingCheck) (isEv Ev.manifestCheck) tr ∧
    ordered (isEv Ev.selfCheck) (isEv Ev.manifestCheck) tr ∧
    ordered evIsCheck evIsGate tr := by
  obtain ⟨b, g, t, rfl, hb, hg, ht⟩ := h
  have hgmem : ∀ e ∈ g, e = Ev.selfCheck ∨ e = Ev.manifestCheck := by
    rcases hg with rfl | rfl | rfl | rfl
    · intro e he; cases he
    · intro e he; simp at he; subst he; exact Or.inl rfl
    · intro e he; simp at he; subst he; exact Or.inr rfl
    · intro e he
      rcases List.mem_cons.1 he with rfl | he'
      · exact Or.inl rfl
      · simp at he'; subst he'; exact Or.inr rfl
  have hbNotSelf : ∀ e ∈ b, isEv Ev.selfCheck e = false := fun e he => by
    rw [hb e he]; rfl
  have hbNotMan : ∀ e ∈ b, isEv Ev.manifestCheck e = false := fun e he => by
    rw [hb e he]; rfl
  have hgtNotBind : ∀ e ∈ g ++ t, isEv Ev.bindingCheck e = false := by
    intro e he
    rcases List.mem_append.1 he with h | h
    · rcases hgmem e h with rfl | rfl <;> rfl
    · exact (not_check_no_ev e (ht e h)).1
  have htNotSelf : ∀ e ∈ t, isEv Ev.selfCheck e = false := fun e he =>
    (not_check_no_ev e (ht e he)).2.1
  refine ⟨ordered_split _ _ _ _ hbNotSelf hgtNotBind,
    ordered_split _ _ _ _ hbNotMan hgtNotBind, ?_, ?_⟩
  · rcases hg with rfl | rfl | rfl | rfl
    · exact ordered_split _ _ b t hbNotMan htNotSelf
    · rw [show b ++ ([Ev.selfCheck] ++ t) = (b ++ [Ev.selfCheck]) ++ t from
        (List.append_assoc _ _ _).symm]
      refine ordered_split _ _ _ _ ?_ htNotSelf
      intro e he
      rcases List.mem_append.1 he with h | h
      · exact hbNotMan e h
      · simp at h; subst h; rfl
    · refine ordered_split _ _ b ([Ev.manifestCheck] ++ t) hbNotMan ?_
      intro e he
      rcases List.mem_append.1 he with h | h
      · simp at h; subst h; rfl
      · exact htNotSelf e h
    · rw [show b ++ ([Ev.selfCheck, Ev.manifestCheck] ++ t)
          = (b ++ [Ev.selfCheck]) ++ ([Ev.manifestCheck] ++ t) by simp]
      refine ordered_split _ _ _ _ ?_ ?_
      · intro e he
        rcases List.mem_append.1 he with h | h
        · exact hbNotMan e h
        · simp at h; subst h; rfl
      · intro e he
        rcases List.mem_append.1 he with h | h
        · simp at h; subst h; rfl
        · exact htNotSelf e h
  · rw [show b ++ (g ++ t) = (b ++ g) ++ t from (List.append_assoc _ _ _).symm]
    refine ordered_split _ _ _ _ ?_ ?_
    · intro e he
      rcases List.mem_append.1 he with h | h
      · rw [hb e h]; rfl
      · rcases hgmem e h with rfl | rfl <;> rfl
    · exact ht

/-- Concrete guard environment with everything intact: the judge is listed
with a matching hash, no allow-list, no protected changes. -/
def okGuardEnv : GuardEnv :=
  { lock := some { protected_globs := ["tools/*"], allow_in_phases := [] }
    manifest := some [(judgeRel, "h2")]
    live := fun p => if p = judgeRel then some "h2" else none
    changed := some []
    fnmatch := fun _ _ => false }

/-- Concrete judge environment whose run performs all three integrity
checks and then all gates. -/
def okJudgeEnv : JudgeEnv :=
  { planMissing := false, planInvalidYaml := false, validatorImportFails := false
    validationErrors := [], phaseFound := true
    currentJson := some (some { plan_sha := none, manifest_sha := none })
    guard := okGuardEnv
    phase := { lintMustPass := false, llmEnabled := false }
    llmAvailable := false
    artifactsIssues := [], testsIssues := [], lintIssues := []
    docsIssues := [], driftIssues := [], llmIssues := [] }

/-- Counterexample for C4: in a concrete full run both the binding check
and the self/manifest checks occur, and the binding check comes first, so
the claimed order (self-integrity, then manifest, then phase-binding) is
violated. -/
theorem integrity_check_ordering_counterexample :
    ¬ (ordered (isEv Ev.selfCheck) (isEv Ev.bindingCheck)
        (judge_phase okJudgeEnv "P1").2 ∧
       ordered (isEv Ev.manifestCheck) (isEv Ev.bindingCheck)
        (judge_phase okJudgeEnv "P1").2) := by
  decide

/-- C4 (amended): in every `judge_phase` run the phase-binding check
precedes the self-integrity check, which precedes manifest verification,
and all integrity checks precede every gate execution.  (The orderings are
vacuous for checks that a given run skips.) -/
theorem integrity_check_ordering (env : JudgeEnv) (pid : String) :
    ordered (isEv Ev.bindingCheck) (isEv Ev.selfCheck) (judge_phase env pid).2 ∧
    ordered (isEv Ev.bindingCheck) (isEv Ev.manifestCheck) (judge_phase env pid).2 ∧
    ordered (isEv Ev.selfCheck) (isEv Ev.manifestCheck) (judge_phase env pid).2 ∧
    ordered evIsCheck evIsGate (judge_phase env pid).2 :=
  traceShape_ordered (judge_phase_trace_shape env pid)

/-! ## Exit codes -/

lemma gateSection_no_verdict (env : JudgeEnv) :
    Ev.approvalWrite ∉ (gateSection env).2 ∧ Ev.critiqueWrite ∉ (gateSection env).2 := by
  constructor <;> intro h <;> obtain ⟨n, hn⟩ := gateSection_evs env _ h <;> cases hn

/-- Correlation between a run's outcome and the verdict it writes: return
0 goes with an approval write (and no critique), return 1 with a critique
write (and no approval), and every other outcome writes no verdict. -/
def VerdictInv (r : JOutcome × List Ev) : Prop :=
  (r.1 = JOutcome.ret 0 ∧ Ev.approvalWrite ∈ r.2 ∧ Ev.critiqueWrite ∉ r.2) ∨
  (r.1 = JOutcome.ret 1 ∧ Ev.critiqueWrite ∈ r.2 ∧ Ev.approvalWrite ∉ r.2) ∨
  ((r.1 = JOutcome.ret 2 ∨ r.1 = JOutcome.sysExit 1 ∨ r.1 = JOutcome.exn) ∧
    Ev.approvalWrite ∉ r.2 ∧ Ev.critiqueWrite ∉ r.2)

lemma judge_phase_verdict (env : JudgeEnv) (pid : String) :
    VerdictInv (judge_phase env pid) := by
  unfold judge_phase
  by_cases h1 : env.planMissing = true
  · rw [if_pos h1]
    exact Or.inr (Or.inr ⟨Or.inr (Or.inl rfl), by simp, by simp⟩)
  rw [if_neg h1]
  by_cases h2 : env.planInvalidYaml = true
  · rw [if_pos h2]
    exact Or.inr (Or.inr ⟨Or.inr (Or.inl rfl), by simp, by simp⟩)
  rw [if_neg h2]
  by_cases h3 : env.validatorImportFails = true
  · rw [if_pos h3]
    exact Or.inr (Or.inr ⟨Or.inr (Or.inr rfl), by simp, by simp⟩)
  rw [if_neg h3]
  by_cases h4 : env.validationErrors ≠ []
  · rw [if_pos h4]
    exact Or.inr (Or.inr ⟨Or.inl rfl, by simp, by simp⟩)
  rw [if_neg h4]
  by_cases h5 : env.phaseFound = false
  · rw [if_pos h5]
    exact Or.inr (Or.inr ⟨Or.inl rfl, by simp, by simp⟩)
  rw [if_neg h5]
  have main : ∀ (bindingIssues : List Issue) (bindingEvs : List Ev),
      Ev.approvalWrite ∉ bindingEvs → Ev.critiqueWrite ∉ bindingEvs →
      VerdictInv
        (if bindingIssues ≠ [] then
            (JOutcome.ret 1, bindingEvs ++ [Ev.critiqueWrite])
          else
            match verify_protocol_lock_tr env.guard pid with
            | (none, guardEvs) => (JOutcome.exn, bindingEvs ++ guardEvs)
            | (some lockIssues, guardEvs) =>
              if lockIssues ≠ [] then
                (JOutcome.ret 1, bindingEvs ++ guardEvs ++ [Ev.critiqueWrite])
              else
                let gates := gateSection env
                if gates.1 ≠ [] then
                  (JOutcome.ret 1,
                    bindingEvs ++ guardEvs ++ gates.2 ++ [Ev.critiqueWrite])
                else
                  (JOutcome.ret 0,
                    bindingEvs ++ guardEvs ++ gates.2 ++ [Ev.approvalWrite])) := by
    intro bI bE hA hC
    by_cases hbi : bI ≠ []
    · rw [if_pos hbi]
      exact Or.inr (Or.inl ⟨rfl, by simp, by simp [hA]⟩)
    · rw [if_neg hbi]
      split
      case _ guardEvs heq =>
        have hg := guard_tr_evs_shape env.guard pid
        rw [heq] at hg
        have hgA : Ev.approvalWrite ∉ guardEvs := by
          rcases hg with rfl | rfl | rfl | rfl <;> simp
        have hgC : Ev.critiqueWrite ∉ guardEvs := by
          rcases hg with rfl | rfl | rfl | rfl <;> simp
        exact Or.inr (Or.inr ⟨Or.inr (Or.inr rfl), by simp [hA, hgA], by simp [hC, hgC]⟩)
      case _ lockIssues guardEvs heq =>
        have hg := guard_tr_evs_shape env.guard pid
        rw [heq] at hg
        have hgA : Ev.approvalWrite ∉ guardEvs := by
          rcases hg with rfl | rfl | rfl | rfl <;> simp
        have hgC : Ev.critiqueWrite ∉ guardEvs := by
          rcases hg with rfl | rfl | rfl | rfl <;> simp
        obtain ⟨hgsA, hgsC⟩ := gateSection_no_verdict env
        by_cases hli : lockIssues ≠ []
        · rw [if_pos hli]
          exact Or.inr (Or.inl ⟨rfl, by simp, by simp [hA, hgA]⟩)
        · rw [if_neg hli]
          dsimp only
          by_cases hga : (gateSection env).1 ≠ []
          · rw [if_pos hga]
            exact Or.inr (Or.inl ⟨rfl, by simp, by simp [hA, hgA, hgsA]⟩)
          · rw [if_neg hga]
            exact Or.inl ⟨rfl, by simp, by simp [hC, hgC, hgsC]⟩
  rcases hc : env.currentJson with _ | (_ | cur)
  · exact main [] [] (by simp) (by simp)
  · exact main [] [] (by simp) (by simp)
  · exact main (verify_phase_binding env.guard.live cur) [Ev.bindingCheck]
      (by simp) (by simp)

/-- Main environment where the plan file is missing and everything else is
healthy. -/
def missingPlanMainEnv : MainEnv :=
  { coreDepsMissing := false, noArgs := false, lockTimeout := false
    jenv := { okJudgeEnv with planMissing := true }
    phase_id := "P1" }

/-- Counterexample for C8: with the plan file missing — one of the claim's
"operational error" cases — the process exits with code 1 (`load_plan`
calls `sys.exit(1)`), not the claimed 2. -/
theorem exit_codes_counterexample :
    missingPlanMainEnv.jenv.planMissing = true ∧
    main_exit missingPlanMainEnv = 1 ∧
    main_exit missingPlanMainEnv ≠ 2 := by
  decide

/-- C8 (amended): the judge exits 0 when an approval is written, 1 when a
critique is written (rejection with issues), and 2 on a lock timeout, an
uncaught exception during evaluation, a schema-validation failure or an
unknown phase — but a missing plan file or invalid YAML ends the process
via `sys.exit(1)` (exit code 1), as does a missing core dependency at the
module-import stage. -/
theorem exit_codes (menv : MainEnv) :
    (menv.coreDepsMissing = true → main_exit menv = 1) ∧
    (menv.coreDepsMissing = false → menv.noArgs = true → main_exit menv = 1) ∧
    (menv.coreDepsMissing = false → menv.noArgs = false → menv.lockTimeout = true →
      main_exit menv = 2) ∧
    (menv.coreDepsMissing = false → menv.noArgs = false → menv.lockTimeout = false →
      (Ev.approvalWrite ∈ (judge_phase menv.jenv menv.phase_id).2 →
        main_exit menv = 0) ∧
      (Ev.critiqueWrite ∈ (judge_phase menv.jenv menv.phase_id).2 →
        main_exit menv = 1) ∧
      ((judge_phase menv.jenv menv.phase_id).1 = JOutcome.exn →
        main_exit menv = 2) ∧
      (∀ c, (judge_phase menv.jenv menv.phase_id).1 = JOutcome.sysExit c →
        main_exit menv = c)) ∧
    (menv.jenv.planMissing = true →
      (judge_phase menv.jenv menv.phase_id).1 = JOutcome.sysExit 1) ∧
    (menv.jenv.planMissing = false → menv.jenv.planInvalidYaml = true →
      (judge_phase menv.jenv menv.phase_id).1 = JOutcome.sysExit 1) ∧
    (menv.jenv.planMissing = false → menv.jenv.planInvalidYaml = false →
      menv.jenv.validatorImportFails = false → menv.jenv.validationErrors ≠ [] →
      (judge_phase menv.jenv menv.phase_id).1 = JOutcome.ret 2) ∧
    (menv.jenv.planMissing = false → menv.jenv.planInvalidYaml = false →
      menv.jenv.validatorImportFails = false → menv.jenv.validationErrors = [] →
      menv.jenv.phaseFound = false →
      (judge_phase menv.jenv menv.phase_id).1 = JOutcome.ret 2) := by
  refine ⟨?_, ?_, ?_, ?_, ?_, ?_, ?_, ?_⟩
  · intro h; simp [main_exit, h]
  · intro h1 h2; simp [main_exit, h1, h2]
  · intro h1 h2 h3; simp [main_exit, h1, h2, h3]
  · intro h1 h2 h3
    have tri := judge_phase_verdict menv.jenv menv.phase_id
    refine ⟨?_, ?_, ?_, ?_⟩
    · intro hap
      rcases tri with ⟨ho, -, -⟩ | ⟨-, -, hno⟩ | ⟨-, hno, -⟩
      · simp [main_exit, h1, h2, h3, ho]
      · exact absurd hap hno
      · exact absurd hap hno
    · intro hcr
      rcases tri with ⟨-, -, hno⟩ | ⟨ho, -, -⟩ | ⟨-, -, hno⟩
      · exact absurd hcr hno
      · simp [main_exit, h1, h2, h3, ho]
      · exact absurd hcr hno
    · intro ho; simp [main_exit, h1, h2, h3, ho]
    · intro c ho; simp [main_exit, h1, h2, h3, ho]
  · intro h; simp [judge_phase, h]
  · intro h1 h2; simp [judge_phase, h1, h2]
  · intro h1 h2 h3 h4; simp [judge_phase, h1, h2, h3, h4]
  · intro h1 h2 h3 h4 h5; simp [judge_phase, h1, h2, h3, h4, h5]

/-- Main environment whose run approves the phase. -/
def okMainEnv : MainEnv :=
  { coreDepsMissing := false, noArgs := false, lockTimeout := false
    jenv := okJudgeEnv, phase_id := "P1" }

/-- Witness for C8: at a concrete healthy environment the approval is
written and the exit code is 0. -/
theorem exit_codes_witness : main_exit okMainEnv = 0 :=
  ((exit_codes okMainEnv).2.2.2.1 rfl rfl rfl).1 (by decide)

/-! ## GateEngine (`tools-v1-backup/lib/gate_interface.py`) -/

/-- A registered gate as `run_gates` sees it: its registry name, the value
of `is_enabled(phase)` for the phase under evaluation, and the behaviour
of `run` — `Except.error msg` models `run` raising an exception whose
string form is `msg`. -/
structure Gate where
  name : String
  enabled : Bool
  run : Except String (List String)

/-- The outcome `run_gates` records for one enabled gate: its issue list,
or the single synthetic issue when `run` raises. -/
def gateOutcome (g : Gate) : List String :=
  match g.run with
  | .ok issues => issues
  | .error msg => ["Gate " ++ g.name ++ " failed: " ++ msg]

/-- `run_gates` from `tools-v1-backup/lib/gate_interface.py` (lines
264-287): iterate the registry in order and, for each enabled gate, run it
inside the failure boundary and record its outcome under its name. -/
def run_gates : List Gate → List (String × List String)
  | [] => []
  | g :: rest =>
    if g.enabled then (g.name, gateOutcome g) :: run_gates rest
    else run_gates rest

lemma run_gates_lookup (gates : List Gate) (h : Gate)
    (hnd : (gates.map Gate.name).Nodup) (hmem : h ∈ gates)
    (hen : h.enabled = true) :
    (run_gates gates).lookup h.name = some (gateOutcome h) := by
  induction gates with
  | nil => cases hmem
  | cons a rest ih =>
    simp only [List.map_cons, List.nodup_cons] at hnd
    rcases List.mem_cons.1 hmem with rfl | hmem'
    · rw [run_gates, if_pos hen]
      simp [List.lookup]
    · have hne : a.name ≠ h.name := by
        intro he
        exact hnd.1 (he ▸ List.mem_map_of_mem Gate.name hmem')
      rw [run_gates]
      by_cases hae : a.enabled = true
      · rw [if_pos hae]
        have : (h.name == a.name) = false := by
          simp [BEq.beq]
          exact fun he => hne he.symm
        simp only [List.lookup, this]
        exact ih hnd.2 hmem'
      · rw [if_neg hae]
        exact ih hnd.2 hmem'

/-- C2: Gate failure isolation — an enabled gate whose `run` raises is
recorded with exactly one synthetic issue `"Gate <name> failed: <message>"`
naming that gate; every other enabled gate's recorded result is exactly its
own outcome; and the engine's output decomposes around any one gate, so a
fault in it never aborts or suppresses the remaining gates. -/
theorem gate_failure_isolation :
    (∀ (gates : List Gate) (g : Gate) (msg : String),
      (gates.map Gate.name).Nodup → g ∈ gates → g.enabled = true →
      g.run = .error msg →
      (run_gates gates).lookup g.name
        = some ["Gate " ++ g.name ++ " failed: " ++ msg]) ∧
    (∀ (gates : List Gate) (h : Gate),
      (gates.map Gate.name).Nodup → h ∈ gates → h.enabled = true →
      (run_gates gates).lookup h.name = some (gateOutcome h)) ∧
    (∀ (l₁ l₂ : List Gate) (g : Gate),
      run_gates (l₁ ++ g :: l₂)
        = run_gates l₁ ++
            ((if g.enabled then [(g.name, gateOutcome g)] else []) ++ run_gates l₂)) := by
  refine ⟨?_, run_gates_lookup, ?_⟩
  · intro gates g msg hnd hmem hen hrun
    have := run_gates_lookup gates g hnd hmem hen
    rw [this, gateOutcome, hrun]
  · intro l₁ l₂ g
    induction l₁ with
    | nil =>
      simp only [List.nil_append, run_gates]
      split <;> simp
    | cons a rest ih =>
      simp only [List.cons_append, run_gates]
      split <;> simp [ih]

/-- Gates used by the C2 witness: a healthy gate, a faulting gate, and a
gate that reports an ordinary issue. -/
def witnessGates : List Gate :=
  [{ name := "artifacts", enabled := true, run := .ok [] },
   { name := "drift", enabled := true, run := .error "boom" },
   { name := "docs", enabled := true, run := .ok ["Docs not updated"] }]

/-- Witness for C2: the faulting drift gate is recorded with exactly the
synthetic issue while the docs gate's own issue survives. -/
theorem gate_failure_isolation_witness :
    (run_gates witnessGates).lookup "drift" = some ["Gate drift failed: boom"] ∧
    (run_gates witnessGates).lookup "docs" = some ["Docs not updated"] := by
  constructor
  · exact gate_failure_isolation.1 witnessGates
      { name := "drift", enabled := true, run := .error "boom" } "boom"
      (by decide) (List.mem_cons_of_mem _ (List.mem_cons_self _ _)) rfl rfl
  · exact gate_failure_isolation.2.1 witnessGates
      { name := "docs", enabled := true, run := .ok ["Docs not updated"] }
      (by decide)
      (List.mem_cons_of_mem _ (List.mem_cons_of_mem _ (List.mem_cons_self _ _))) rfl

/-! ## Filesystem model, atomic writes and verdict markers

`write_approval` / `write_critique` (`tools/judge.py` lines 1379-1538) and
`set_current_phase` (`tools/lib/state.py` lines 54-116) interact with the
filesystem through four primitives: create/overwrite a file, unlink it,
and `os.replace` (atomic rename).  The filesystem is modelled as an
association list from path to content, and each Python function as the
ordered list of primitive operations it performs, so that crash states are
the prefixes of that list. -/

/-- A filesystem: association list from path to file content. -/
def FS : Type := List (String × String)

/-- Content of the file at `p`, if present. -/
def FS.read (fs : FS) (p : String) : Option String := List.lookup p fs

/-- Create or overwrite the file at `p` with content `c`. -/
def FS.write (fs : FS) (p c : String) : FS :=
  (p, c) :: fs.filter (fun e => !(e.1 == p))

/-- Unlink the file at `p` (no-op when absent, like the guarded
`if f.exists(): f.unlink()` in the source). -/
def FS.remove (fs : FS) (p : String) : FS := fs.filter (fun e => !(e.1 == p))

/-- Whether a file exists at `p`. -/
def FS.pathExists (fs : FS) (p : String) : Bool := (fs.read p).isSome

/-- The three filesystem primitives the verdict and state writers use. -/
inductive FsOp
  | write (p c : String)
  | remove (p : String)
  | rename (src dst : String)

/-- `os.replace src dst` semantics: move the content of `src` over `dst`;
when `src` is absent the model leaves the filesystem unchanged (the
sources only rename freshly written temp files). -/
def applyOp (fs : FS) : FsOp → FS
  | .write p c => fs.write p c
  | .remove p => fs.remove p
  | .rename src dst =>
    match fs.read src with
    | some c => (fs.remove src).write dst c
    | none => fs

/-- Run a list of filesystem operations in order. -/
def applyOps (fs : FS) (ops : List FsOp) : FS := ops.foldl applyOp fs

lemma lookup_filter_ne (fs : FS) (p q : String) (h : q ≠ p) :
    List.lookup q (fs.filter (fun e => !(e.1 == p))) = List.lookup q fs := by
  induction fs with
  | nil => rfl
  | cons a rest ih =>
    obtain ⟨k, v⟩ := a
    by_cases hk : (k == p) = true
    · rw [List.filter_cons_of_neg (by simp [hk])]
      have hqk : (q == k) = false := by
        rw [beq_eq_false_iff_ne]
        intro he
        exact h (he.trans (beq_iff_eq.1 hk))
      simp only [List.lookup, hqk]
      exact ih
    · rw [List.filter_cons_of_pos (by simp [hk])]
      by_cases hq : (q == k) = true
      · simp [List.lookup, hq]
      · have hq' : (q == k) = false := by simpa using hq
        simp only [List.lookup, hq']
        exact ih

lemma read_write_self (fs : FS) (p c : String) :
    (fs.write p c).read p = some c := by
  simp [FS.write, FS.read, List.lookup]

lemma read_write_other (fs : FS) (p q c : String) (h : q ≠ p) :
    (fs.write p c).read q = fs.read q := by
  have hq : (q == p) = false := by simpa using h
  simp only [FS.write, FS.read, List.lookup, hq]
  exact lookup_filter_ne fs p q h

lemma read_remove_self (fs : FS) (p : String) : (fs.remove p).read p = none := by
  induction fs with
  | nil => rfl
  | cons a rest ih =>
    obtain ⟨k, v⟩ := a
    by_cases hk : (k == p) = true
    · rw [FS.remove, List.filter_cons_of_neg (by simp [hk])]
      exact ih
    · rw [FS.remove, List.filter_cons_of_pos (by simp [hk])]
      have hpk : (p == k) = false := by
        rw [beq_eq_false_iff_ne]
        intro he
        exact hk (beq_iff_eq.2 he.symm)
      simp only [FS.read, List.lookup, hpk]
      exact ih

lemma read_remove_other (fs : FS) (p q : String) (h : q ≠ p) :
    (fs.remove p).read q = fs.read q :=
  lookup_filter_ne fs p q h

lemma read_rename_dst (fs : FS) (src dst c : String)
    (h : fs.read src = some c) :
    (applyOp fs (.rename src dst)).read dst = some c := by
  simp only [applyOp, h]
  exact read_write_self _ _ _

lemma read_rename_other (fs : FS) (src dst q : String)
    (hq1 : q ≠ dst) (hq2 : q ≠ src) :
    (applyOp fs (.rename src dst)).read q = fs.read q := by
  simp only [applyOp]
  rcases hr : fs.read src with _ | c
  · rfl
  · rw [read_write_other _ _ _ _ hq1, read_remove_other _ _ _ hq2]

lemma read_rename_src (fs : FS) (src dst c : String)
    (h : fs.read src = some c) (hne : src ≠ dst) :
    (applyOp fs (.rename src dst)).read src = none := by
  simp only [applyOp, h]
  rw [read_write_other _ _ _ _ hne]
  exact read_remove_self _ _

/-- Path of the approval marker `critiques/<pid>.OK`. -/
def okFile (pid : String) : String := ".repo/critiques/" ++ pid ++ ".OK"

/-- Path of the machine-readable approval marker `critiques/<pid>.OK.json`. -/
def okJsonFile (pid : String) : String := ".repo/critiques/" ++ pid ++ ".OK.json"

/-- Path of the critique marker `critiques/<pid>.md`. -/
def critiqueMdFile (pid : String) : String := ".repo/critiques/" ++ pid ++ ".md"

/-- Path of the machine-readable critique `critiques/<pid>.json`. -/
def critiqueJsonFile (pid : String) : String := ".repo/critiques/" ++ pid ++ ".json"

lemma string_append_ne (s x y : String) (h : x.data ≠ y.data) : s ++ x ≠ s ++ y := by
  intro he
  apply h
  have hd := congrArg String.data he
  rw [String.data_append, String.data_append] at hd
  exact List.append_cancel_left hd

lemma okFile_ne_okJsonFile (pid : String) : okFile pid ≠ okJsonFile pid :=
  string_append_ne _ _ _ (by decide)

lemma okFile_ne_critiqueMdFile (pid : String) : okFile pid ≠ critiqueMdFile pid :=
  string_append_ne _ _ _ (by decide)

lemma okFile_ne_critiqueJsonFile (pid : String) : okFile pid ≠ critiqueJsonFile pid :=
  string_append_ne _ _ _ (by decide)

lemma okJsonFile_ne_critiqueMdFile (pid : String) : okJsonFile pid ≠ critiqueMdFile pid :=
  string_append_ne _ _ _ (by decide)

lemma okJsonFile_ne_critiqueJsonFile (pid : String) :
    okJsonFile pid ≠ critiqueJsonFile pid :=
  string_append_ne _ _ _ (by decide)

lemma critiqueMdFile_ne_critiqueJsonFile (pid : String) :
    critiqueMdFile pid ≠ critiqueJsonFile pid :=
  string_append_ne _ _ _ (by decide)

/-- The filesystem operations of `write_approval` (`tools/judge.py` lines
1478-1538), in source order: write the `.OK` content to a temp file,
atomically rename it over `.OK`, do the same for `.OK.json`, and only then
unlink the two critique files.  `t₁, t₂` are the generated temp-file names
and `c₁, c₂` the serialized contents. -/
def write_approval_ops (pid t₁ t₂ c₁ c₂ : String) : List FsOp :=
  [.write t₁ c₁, .rename t₁ (okFile pid),
   .write t₂ c₂, .rename t₂ (okJsonFile pid),
   .remove (critiqueMdFile pid), .remove (critiqueJsonFile pid)]

/-- `write_approval` as a filesystem transformer. -/
def write_approval (pid t₁ t₂ c₁ c₂ : String) (fs : FS) : FS :=
  applyOps fs (write_approval_ops pid t₁ t₂ c₁ c₂)

/-- The filesystem operations of `write_critique` (`tools/judge.py` lines
1379-1475), in source order: write the markdown critique via temp file and
rename, the JSON critique likewise, and only then unlink the two approval
markers. -/
def write_critique_ops (pid t₁ t₂ c₁ c₂ : String) : List FsOp :=
  [.write t₁ c₁, .rename t₁ (critiqueMdFile pid),
   .write t₂ c₂, .rename t₂ (critiqueJsonFile pid),
   .remove (okFile pid), .remove (okJsonFile pid)]

/-- `write_critique` as a filesystem transformer (marker files only; the
amendment side effects do not touch the four marker paths). -/
def write_critique (pid t₁ t₂ c₁ c₂ : String) (fs : FS) : FS :=
  applyOps fs (write_critique_ops pid t₁ t₂ c₁ c₂)

/-- A generated temp-file name never collides with the four marker paths
(the sources draw them from `tempfile.NamedTemporaryFile` with a `.tmp`
suffix). -/
def tempOk (pid t : String) : Prop :=
  t ≠ okFile pid ∧ t ≠ okJsonFile pid ∧
  t ≠ critiqueMdFile pid ∧ t ≠ critiqueJsonFile pid

lemma read_applyOp_write_self (fs : FS) (p c : String) :
    (applyOp fs (.write p c)).read p = some c := read_write_self fs p c

lemma read_applyOp_write_other (fs : FS) (p q c : String) (h : q ≠ p) :
    (applyOp fs (.write p c)).read q = fs.read q := read_write_other fs p q c h

lemma read_applyOp_remove_self (fs : FS) (p : String) :
    (applyOp fs (.remove p)).read p = none := read_remove_self fs p

lemma read_applyOp_remove_other (fs : FS) (p q : String) (h : q ≠ p) :
    (applyOp fs (.remove p)).read q = fs.read q := read_remove_other fs p q h

lemma write_approval_reads (pid t₁ t₂ c₁ c₂ : String) (fs : FS)
    (h₁ : tempOk pid t₁) (h₂ : tempOk pid t₂) :
    (write_approval pid t₁ t₂ c₁ c₂ fs).read (okFile pid) = some c₁ ∧
    (write_approval pid t₁ t₂ c₁ c₂ fs).read (okJsonFile pid) = some c₂ ∧
    (write_approval pid t₁ t₂ c₁ c₂ fs).read (critiqueMdFile pid) = none ∧
    (write_approval pid t₁ t₂ c₁ c₂ fs).read (critiqueJsonFile pid) = none := by
  obtain ⟨h₁ok, h₁okj, h₁md, h₁js⟩ := h₁
  obtain ⟨h₂ok, h₂okj, h₂md, h₂js⟩ := h₂
  simp only [write_approval, write_approval_ops, applyOps, List.foldl]
  refine ⟨?_, ?_, ?_, ?_⟩
  · rw [read_applyOp_remove_other _ _ _ (okFile_ne_critiqueJsonFile pid),
        read_applyOp_remove_other _ _ _ (okFile_ne_critiqueMdFile pid),
        read_rename_other _ _ _ _ (okFile_ne_okJsonFile pid) (Ne.symm h₂ok),
        read_applyOp_write_other _ _ _ _ (Ne.symm h₂ok),
        read_rename_dst _ _ _ c₁ (read_applyOp_write_self fs t₁ c₁)]
  · rw [read_applyOp_remove_other _ _ _ (okJsonFile_ne_critiqueJsonFile pid),
        read_applyOp_remove_other _ _ _ (okJsonFile_ne_critiqueMdFile pid),
        read_rename_dst _ _ _ c₂ (read_applyOp_write_self _ t₂ c₂)]
  · rw [read_applyOp_remove_other _ _ _ (critiqueMdFile_ne_critiqueJsonFile pid),
        read_applyOp_remove_self]
  · rw [read_applyOp_remove_self]

lemma write_critique_reads (pid t₁ t₂ c₁ c₂ : String) (fs : FS)
    (h₁ : tempOk pid t₁) (h₂ : tempOk pid t₂) :
    (write_critique pid t₁ t₂ c₁ c₂ fs).read (critiqueMdFile pid) = some c₁ ∧
    (write_critique pid t₁ t₂ c₁ c₂ fs).read (critiqueJsonFile pid) = some c₂ ∧
    (write_critique pid t₁ t₂ c₁ c₂ fs).read (okFile pid) = none ∧
    (write_critique pid t₁ t₂ c₁ c₂ fs).read (okJsonFile pid) = none := by
  obtain ⟨h₁ok, h₁okj, h₁md, h₁js⟩ := h₁
  obtain ⟨h₂ok, h₂okj, h₂md, h₂js⟩ := h₂
  simp only [write_critique, write_critique_ops, applyOps, List.foldl]
  refine ⟨?_, ?_, ?_, ?_⟩
  · rw [read_applyOp_remove_other _ _ _
          (Ne.symm (okJsonFile_ne_critiqueMdFile pid)),
        read_applyOp_remove_other _ _ _ (Ne.symm (okFile_ne_critiqueMdFile pid)),
        read_rename_other _ _ _ _ (critiqueMdFile_ne_critiqueJsonFile pid)
          (Ne.symm h₂md),
        read_applyOp_write_other _ _ _ _ (Ne.symm h₂md),
        read_rename_dst _ _ _ c₁ (read_applyOp_write_self fs t₁ c₁)]
  · rw [read_applyOp_remove_other _ _ _
          (Ne.symm (okJsonFile_ne_critiqueJsonFile pid)),
        read_applyOp_remove_other _ _ _
          (Ne.symm (okFile_ne_critiqueJsonFile pid)),
        read_rename_dst _ _ _ c₂ (read_applyOp_write_self _ t₂ c₂)]
  · rw [read_applyOp_remove_other _ _ _ (okFile_ne_okJsonFile pid),
        read_applyOp_remove_self]
  · rw [read_applyOp_remove_self]

lemma write_approval_prefix_safe (pid t₁ t₂ c₁ c₂ : String) (fs : FS)
    (h₁ : tempOk pid t₁) (h₂ : tempOk pid t₂) (k : Nat) :
    (((applyOps fs ((write_approval_ops pid t₁ t₂ c₁ c₂).take k)).pathExists
          (critiqueMdFile pid) = false →
        fs.pathExists (critiqueMdFile pid) = false) ∨
      ((applyOps fs ((write_approval_ops pid t₁ t₂ c₁ c₂).take k)).pathExists
          (okFile pid) = true ∧
       (applyOps fs ((write_approval_ops pid t₁ t₂ c₁ c₂).take k)).pathExists
          (okJsonFile pid) = true)) ∧
    (((applyOps fs ((write_approval_ops pid t₁ t₂ c₁ c₂).take k)).pathExists
          (critiqueJsonFile pid) = false →
        fs.pathExists (critiqueJsonFile pid) = false) ∨
      ((applyOps fs ((write_approval_ops pid t₁ t₂ c₁ c₂).take k)).pathExists
          (okFile pid) = true ∧
       (applyOps fs ((write_approval_ops pid t₁ t₂ c₁ c₂).take k)).pathExists
          (okJsonFile pid) = true)) := by
  obtain ⟨h₁ok, h₁okj, h₁md, h₁js⟩ := h₁
  obtain ⟨h₂ok, h₂okj, h₂md, h₂js⟩ := h₂
  have eok : ∀ fs' : FS,
      (applyOp (applyOp fs' (.write t₂ c₂)) (.rename t₂ (okJsonFile pid))).read
          (okFile pid)
        = fs'.read (okFile pid) := fun fs' => by
    rw [read_rename_other _ _ _ _ (okFile_ne_okJsonFile pid) (Ne.symm h₂ok),
        read_applyOp_write_other _ _ _ _ (Ne.symm h₂ok)]
  have hok2 : (applyOp (applyOp fs (.write t₁ c₁)) (.rename t₁ (okFile pid))).read
      (okFile pid) = some c₁ :=
    read_rename_dst _ _ _ c₁ (read_applyOp_write_self fs t₁ c₁)
  have hokj4 : (applyOp (applyOp (applyOp (applyOp fs (.write t₁ c₁))
      (.rename t₁ (okFile pid))) (.write t₂ c₂)) (.rename t₂ (okJsonFile pid))).read
      (okJsonFile pid) = some c₂ :=
    read_rename_dst _ _ _ c₂ (read_applyOp_write_self _ t₂ c₂)
  have hok4 : (applyOp (applyOp (applyOp (applyOp fs (.write t₁ c₁))
      (.rename t₁ (okFile pid))) (.write t₂ c₂)) (.rename t₂ (okJsonFile pid))).read
      (okFile pid) = some c₁ := by
    rw [eok, hok2]
  match k with
  | 0 => exact ⟨Or.inl id, Or.inl id⟩
  | 1 =>
    simp only [write_approval_ops, List.take, applyOps, List.foldl]
    constructor <;> left <;> intro h <;>
      [rwa [FS.pathExists, read_applyOp_write_other _ _ _ _ (Ne.symm h₁md)] at h;
       rwa [FS.pathExists, read_applyOp_write_other _ _ _ _ (Ne.symm h₁js)] at h]
  | 2 =>
    simp only [write_approval_ops, List.take, applyOps, List.foldl]
    constructor <;> left <;> intro h
    · rwa [FS.pathExists,
        read_rename_other _ _ _ _ (Ne.symm (okFile_ne_critiqueMdFile pid))
          (Ne.symm h₁md),
        read_applyOp_write_other _ _ _ _ (Ne.symm h₁md)] at h
    · rwa [FS.pathExists,
        read_rename_other _ _ _ _ (Ne.symm (okFile_ne_critiqueJsonFile pid))
          (Ne.symm h₁js),
        read_applyOp_write_other _ _ _ _ (Ne.symm h₁js)] at h
  | 3 =>
    simp only [write_approval_ops, List.take, applyOps, List.foldl]
    constructor <;> left <;> intro h
    · rwa [FS.pathExists,
        read_applyOp_write_other _ _ _ _ (Ne.symm h₂md),
        read_rename_other _ _ _ _ (Ne.symm (okFile_ne_critiqueMdFile pid))
          (Ne.symm h₁md),
        read_applyOp_write_other _ _ _ _ (Ne.symm h₁md)] at h
    · rwa [FS.pathExists,
        read_applyOp_write_other _ _ _ _ (Ne.symm h₂js),
        read_rename_other _ _ _ _ (Ne.symm (okFile_ne_critiqueJsonFile pid))
          (Ne.symm h₁js),
        read_applyOp_write_other _ _ _ _ (Ne.symm h₁js)] at h
  | 4 =>
    simp only [write_approval_ops, List.take, applyOps, List.foldl]
    constructor <;> left <;> intro h
    · rwa [FS.pathExists,
        read_rename_other _ _ _ _
          (Ne.symm (okJsonFile_ne_critiqueMdFile pid)) (Ne.symm h₂md),
        read_applyOp_write_other _ _ _ _ (Ne.symm h₂md),
        read_rename_other _ _ _ _ (Ne.symm (okFile_ne_critiqueMdFile pid))
          (Ne.symm h₁md),
        read_applyOp_write_other _ _ _ _ (Ne.symm h₁md)] at h
    · rwa [FS.pathExists,
        read_rename_other _ _ _ _
          (Ne.symm (okJsonFile_ne_critiqueJsonFile pid)) (Ne.symm h₂js),
        read_applyOp_write_other _ _ _ _ (Ne.symm h₂js),
        read_rename_other _ _ _ _ (Ne.symm (okFile_ne_critiqueJsonFile pid))
          (Ne.symm h₁js),
        read_applyOp_write_other _ _ _ _ (Ne.symm h₁js)] at h
  | 5 =>
    simp only [write_approval_ops, List.take, applyOps, List.foldl]
    constructor <;> right <;> constructor
    · rw [FS.pathExists,
        read_applyOp_remove_other _ _ _ (okFile_ne_critiqueMdFile pid), hok4]
      rfl
    · rw [FS.pathExists,
        read_applyOp_remove_other _ _ _ (okJsonFile_ne_critiqueMdFile pid), hokj4]
      rfl
    · rw [FS.pathExists,
        read_applyOp_remove_other _ _ _ (okFile_ne_critiqueMdFile pid), hok4]
      rfl
    · rw [FS.pathExists,
        read_applyOp_remove_other _ _ _ (okJsonFile_ne_critiqueMdFile pid), hokj4]
      rfl
  | (n + 6) =>
    simp only [write_approval_ops, List.take, List.take_nil, applyOps, List.foldl]
    constructor <;> right <;> constructor
    · rw [FS.pathExists,
        read_applyOp_remove_other _ _ _ (okFile_ne_critiqueJsonFile pid),
        read_applyOp_remove_other _ _ _ (okFile_ne_critiqueMdFile pid), hok4]
      rfl
    · rw [FS.pathExists,
        read_applyOp_remove_other _ _ _ (okJsonFile_ne_critiqueJsonFile pid),
        read_applyOp_remove_other _ _ _ (okJsonFile_ne_critiqueMdFile pid), hokj4]
      rfl
    · rw [FS.pathExists,
        read_applyOp_remove_other _ _ _ (okFile_ne_critiqueJsonFile pid),
        read_applyOp_remove_other _ _ _ (okFile_ne_critiqueMdFile pid), hok4]
      rfl
    · rw [FS.pathExists,
        read_applyOp_remove_other _ _ _ (okJsonFile_ne_critiqueJsonFile pid),
        read_applyOp_remove_other _ _ _ (okJsonFile_ne_critiqueMdFile pid), hokj4]
      rfl

lemma write_critique_prefix_safe (pid t₁ t₂ c₁ c₂ : String) (fs : FS)
    (h₁ : tempOk pid t₁) (h₂ : tempOk pid t₂) (k : Nat) :
    (((applyOps fs ((write_critique_ops pid t₁ t₂ c₁ c₂).take k)).pathExists
          (okFile pid) = false →
        fs.pathExists (okFile pid) = false) ∨
      ((applyOps fs ((write_critique_ops pid t₁ t₂ c₁ c₂).take k)).pathExists
          (critiqueMdFile pid) = true ∧
       (applyOps fs ((write_critique_ops pid t₁ t₂ c₁ c₂).take k)).pathExists
          (critiqueJsonFile pid) = true)) ∧
    (((applyOps fs ((write_critique_ops pid t₁ t₂ c₁ c₂).take k)).pathExists
          (okJsonFile pid) = false →
        fs.pathExists (okJsonFile pid) = false) ∨
      ((applyOps fs ((write_critique_ops pid t₁ t₂ c₁ c₂).take k)).pathExists
          (critiqueMdFile pid) = true ∧
       (applyOps fs ((write_critique_ops pid t₁ t₂ c₁ c₂).take k)).pathExists
          (critiqueJsonFile pid) = true)) := by
  obtain ⟨h₁ok, h₁okj, h₁md, h₁js⟩ := h₁
  obtain ⟨h₂ok, h₂okj, h₂md, h₂js⟩ := h₂
  have hmd2 : (applyOp (applyOp fs (.write t₁ c₁))
      (.rename t₁ (critiqueMdFile pid))).read (critiqueMdFile pid) = some c₁ :=
    read_rename_dst _ _ _ c₁ (read_applyOp_write_self fs t₁ c₁)
  have hjs4 : (applyOp (applyOp (applyOp (applyOp fs (.write t₁ c₁))
      (.rename t₁ (critiqueMdFile pid))) (.write t₂ c₂))
      (.rename t₂ (critiqueJsonFile pid))).read (critiqueJsonFile pid) = some c₂ :=
    read_rename_dst _ _ _ c₂ (read_applyOp_write_self _ t₂ c₂)
  have hmd4 : (applyOp (applyOp (applyOp (applyOp fs (.write t₁ c₁))
      (.rename t₁ (critiqueMdFile pid))) (.write t₂ c₂))
      (.rename t₂ (critiqueJsonFile pid))).read (critiqueMdFile pid) = some c₁ := by
    rw [read_rename_other _ _ _ _ (critiqueMdFile_ne_critiqueJsonFile pid)
          (Ne.symm h₂md),
        read_applyOp_write_other _ _ _ _ (Ne.symm h₂md), hmd2]
  match k with
  | 0 => exact ⟨Or.inl id, Or.inl id⟩
  | 1 =>
    simp only [write_critique_ops, List.take, applyOps, List.foldl]
    constructor <;> left <;> intro h <;>
      [rwa [FS.pathExists, read_applyOp_write_other _ _ _ _ (Ne.symm h₁ok)] at h;
       rwa [FS.pathExists, read_applyOp_write_other _ _ _ _ (Ne.symm h₁okj)] at h]
  | 2 =>
    simp only [write_critique_ops, List.take, applyOps, List.foldl]
    constructor <;> left <;> intro h
    · rwa [FS.pathExists,
        read_rename_other _ _ _ _ (okFile_ne_critiqueMdFile pid) (Ne.symm h₁ok),
        read_applyOp_write_other _ _ _ _ (Ne.symm h₁ok)] at h
    · rwa [FS.pathExists,
        read_rename_other _ _ _ _ (okJsonFile_ne_critiqueMdFile pid)
          (Ne.symm h₁okj),
        read_applyOp_write_other _ _ _ _ (Ne.symm h₁okj)] at h
  | 3 =>
    simp only [write_critique_ops, List.take, applyOps, List.foldl]
    constructor <;> left <;> intro h
    · rwa [FS.pathExists,
        read_applyOp_write_other _ _ _ _ (Ne.symm h₂ok),
        read_rename_other _ _ _ _ (okFile_ne_critiqueMdFile pid) (Ne.symm h₁ok),
        read_applyOp_write_other _ _ _ _ (Ne.symm h₁ok)] at h
    · rwa [FS.pathExists,
        read_applyOp_write_other _ _ _ _ (Ne.symm h₂okj),
        read_rename_other _ _ _ _ (okJsonFile_ne_critiqueMdFile pid)
          (Ne.symm h₁okj),
        read_applyOp_write_other _ _ _ _ (Ne.symm h₁okj)] at h
  | 4 =>
    simp only [write_critique_ops, List.take, applyOps, List.foldl]
    constructor <;> left <;> intro h
    · rwa [FS.pathExists,
        read_rename_other _ _ _ _ (okFile_ne_critiqueJsonFile pid)
          (Ne.symm h₂ok),
        read_applyOp_write_other _ _ _ _ (Ne.symm h₂ok),
        read_rename_other _ _ _ _ (okFile_ne_critiqueMdFile pid) (Ne.symm h₁ok),
        read_applyOp_write_other _ _ _ _ (Ne.symm h₁ok)] at h
    · rwa [FS.pathExists,
        read_rename_other _ _ _ _ (okJsonFile_ne_critiqueJsonFile pid)
          (Ne.symm h₂okj),
        read_applyOp_write_other _ _ _ _ (Ne.symm h₂okj),
        read_rename_other _ _ _ _ (okJsonFile_ne_critiqueMdFile pid)
          (Ne.symm h₁okj),
        read_applyOp_write_other _ _ _ _ (Ne.symm h₁okj)] at h
  | 5 =>
    simp only [write_critique_ops, List.take, applyOps, List.foldl]
    constructor <;> right <;> constructor
    · rw [FS.pathExists,
        read_applyOp_remove_other _ _ _ (Ne.symm (okFile_ne_critiqueMdFile pid)),
        hmd4]
      rfl
    · rw [FS.pathExists,
        read_applyOp_remove_other _ _ _
          (Ne.symm (okFile_ne_critiqueJsonFile pid)), hjs4]
      rfl
    · rw [FS.pathExists,
        read_applyOp_remove_other _ _ _ (Ne.symm (okFile_ne_critiqueMdFile pid)),
        hmd4]
      rfl
    · rw [FS.pathExists,
        read_applyOp_remove_other _ _ _
          (Ne.symm (okFile_ne_critiqueJsonFile pid)), hjs4]
      rfl
  | (n + 6) =>
    simp only [write_critique_ops, List.take, List.take_nil, applyOps, List.foldl]
    constructor <;> right <;> constructor
    · rw [FS.pathExists,
        read_applyOp_remove_other _ _ _
          (Ne.symm (okJsonFile_ne_critiqueMdFile pid)),
        read_applyOp_remove_other _ _ _ (Ne.symm (okFile_ne_critiqueMdFile pid)),
        hmd4]
      rfl
    · rw [FS.pathExists,
        read_applyOp_remove_other _ _ _
          (Ne.symm (okJsonFile_ne_critiqueJsonFile pid)),
        read_applyOp_remove_other _ _ _
          (Ne.symm (okFile_ne_critiqueJsonFile pid)), hjs4]
      rfl
    · rw [FS.pathExists,
        read_applyOp_remove_other _ _ _
          (Ne.symm (okJsonFile_ne_critiqueMdFile pid)),
        read_applyOp_remove_other _ _ _ (Ne.symm (okFile_ne_critiqueMdFile pid)),
        hmd4]
      rfl
    · rw [FS.pathExists,
        read_applyOp_remove_other _ _ _
          (Ne.symm (okJsonFile_ne_critiqueJsonFile pid)),
        read_applyOp_remove_other _ _ _
          (Ne.symm (okFile_ne_critiqueJsonFile pid)), hjs4]
      rfl

/-- C3: Verdict exclusivity — after `write_approval` both approval markers
exist and neither critique file does; after `write_critique` both critique
files exist and neither approval marker does; in both operations, at every
crash prefix, an opposite marker can only have disappeared if both new
markers are already in place; and repeated calls are idempotent on the
four marker paths. -/
theorem verdict_exclusivity (pid t₁ t₂ c₁ c₂ u₁ u₂ : String) (fs : FS)
    (h₁ : tempOk pid t₁) (h₂ : tempOk pid t₂)
    (h₃ : tempOk pid u₁) (h₄ : tempOk pid u₂) :
    ((write_approval pid t₁ t₂ c₁ c₂ fs).pathExists (okFile pid) = true ∧
     (write_approval pid t₁ t₂ c₁ c₂ fs).pathExists (okJsonFile pid) = true ∧
     (write_approval pid t₁ t₂ c₁ c₂ fs).pathExists (critiqueMdFile pid) = false ∧
     (write_approval pid t₁ t₂ c₁ c₂ fs).pathExists (critiqueJsonFile pid) = false) ∧
    ((write_critique pid t₁ t₂ c₁ c₂ fs).pathExists (critiqueMdFile pid) = true ∧
     (write_critique pid t₁ t₂ c₁ c₂ fs).pathExists (critiqueJsonFile pid) = true ∧
     (write_critique pid t₁ t₂ c₁ c₂ fs).pathExists (okFile pid) = false ∧
     (write_critique pid t₁ t₂ c₁ c₂ fs).pathExists (okJsonFile pid) = false) ∧
    (∀ k : Nat,
      ((applyOps fs ((write_approval_ops pid t₁ t₂ c₁ c₂).take k)).pathExists
          (critiqueMdFile pid) = false →
        fs.pathExists (critiqueMdFile pid) = false) ∨
      ((applyOps fs ((write_approval_ops pid t₁ t₂ c₁ c₂).take k)).pathExists
          (okFile pid) = true ∧
       (applyOps fs ((write_approval_ops pid t₁ t₂ c₁ c₂).take k)).pathExists
          (okJsonFile pid) = true)) ∧
    (∀ k : Nat,
      ((applyOps fs ((write_critique_ops pid t₁ t₂ c₁ c₂).take k)).pathExists
          (okFile pid) = false →
        fs.pathExists (okFile pid) = false) ∨
      ((applyOps fs ((write_critique_ops pid t₁ t₂ c₁ c₂).take k)).pathExists
          (critiqueMdFile pid) = true ∧
       (applyOps fs ((write_critique_ops pid t₁ t₂ c₁ c₂).take k)).pathExists
          (critiqueJsonFile pid) = true)) ∧
    (∀ p : String,
      p = okFile pid ∨ p = okJsonFile pid ∨
        p = critiqueMdFile pid ∨ p = critiqueJsonFile pid →
      (write_approval pid u₁ u₂ c₁ c₂ (write_approval pid t₁ t₂ c₁ c₂ fs)).read p
          = (write_approval pid t₁ t₂ c₁ c₂ fs).read p ∧
      (write_critique pid u₁ u₂ c₁ c₂ (write_critique pid t₁ t₂ c₁ c₂ fs)).read p
          = (write_critique pid t₁ t₂ c₁ c₂ fs).read p) := by
  obtain ⟨a1, a2, a3, a4⟩ := write_approval_reads pid t₁ t₂ c₁ c₂ fs h₁ h₂
  obtain ⟨r1, r2, r3, r4⟩ := write_critique_reads pid t₁ t₂ c₁ c₂ fs h₁ h₂
  obtain ⟨a1', a2', a3', a4'⟩ := write_approval_reads pid u₁ u₂ c₁ c₂
    (write_approval pid t₁ t₂ c₁ c₂ fs) h₃ h₄
  obtain ⟨r1', r2', r3', r4'⟩ := write_critique_reads pid u₁ u₂ c₁ c₂
    (write_critique pid t₁ t₂ c₁ c₂ fs) h₃ h₄
  refine ⟨⟨?_, ?_, ?_, ?_⟩, ⟨?_, ?_, ?_, ?_⟩,
    fun k => (write_approval_prefix_safe pid t₁ t₂ c₁ c₂ fs h₁ h₂ k).1,
    fun k => (write_critique_prefix_safe pid t₁ t₂ c₁ c₂ fs h₁ h₂ k).1, ?_⟩
  · rw [FS.pathExists, a1]; rfl
  · rw [FS.pathExists, a2]; rfl
  · rw [FS.pathExists, a3]; rfl
  · rw [FS.pathExists, a4]; rfl
  · rw [FS.pathExists, r1]; rfl
  · rw [FS.pathExists, r2]; rfl
  · rw [FS.pathExists, r3]; rfl
  · rw [FS.pathExists, r4]; rfl
  · rintro p (rfl | rfl | rfl | rfl)
    · exact ⟨a1'.trans a1.symm, r3'.trans r3.symm⟩
    · exact ⟨a2'.trans a2.symm, r4'.trans r4.symm⟩
    · exact ⟨a3'.trans a3.symm, r1'.trans r1.symm⟩
    · exact ⟨a4'.trans a4.symm, r2'.trans r2.symm⟩

/-- Witness for C3: from a state holding an old critique, a concrete
`write_approval` leaves both approval markers and no critique file, and a
repeated approval changes no marker. -/
theorem verdict_exclusivity_witness :
    (write_approval "P1" ".repo/critiques/.P1_a.tmp" ".repo/critiques/.P1_b.tmp"
        "ok" "okjson" [(critiqueMdFile "P1", "old")]).pathExists (okFile "P1")
      = true ∧
    (write_approval "P1" ".repo/critiques/.P1_a.tmp" ".repo/critiques/.P1_b.tmp"
        "ok" "okjson" [(critiqueMdFile "P1", "old")]).pathExists
        (critiqueMdFile "P1") = false := by
  have h := verdict_exclusivity "P1" ".repo/critiques/.P1_a.tmp"
    ".repo/critiques/.P1_b.tmp" "ok" "okjson" ".repo/critiques/.P1_c.tmp"
    ".repo/critiques/.P1_d.tmp" [(critiqueMdFile "P1", "old")]
    (by refine ⟨?_, ?_, ?_, ?_⟩ <;> decide)
    (by refine ⟨?_, ?_, ?_, ?_⟩ <;> decide)
    (by refine ⟨?_, ?_, ?_, ?_⟩ <;> decide)
    (by refine ⟨?_, ?_, ?_, ?_⟩ <;> decide)
  exact ⟨h.1.1, h.1.2.2.1⟩

/-- The filesystem operations of the temp-file-then-rename discipline in
`set_current_phase` (`tools/lib/state.py` lines 101-116): write the
serialized record to a fresh temp file, then `os.replace` it over the
target.  `write_approval` and `write_critique` use the same two-step
pattern per file.  The source has no cleanup of the temp file on a failure
between the two steps. -/
def set_current_phase_ops (tmp target content : String) : List FsOp :=
  [.write tmp content, .rename tmp target]

/-- Initial state for the C5 counterexample: the current-phase pointer
holds its old serialized record. -/
def c5fs : FS := [(".repo/state/current.json", "old")]

/-- Counterexample for C5: injecting a failure after the temp-file write
and before the rename leaves the target unchanged (that half of the claim
holds) but does not remove the temp file, and the orphaned temp file even
survives a subsequent successful write with a fresh temp name. -/
theorem atomic_write_counterexample :
    (applyOps c5fs ((set_current_phase_ops ".repo/state/.current.a1.tmp"
        ".repo/state/current.json" "new").take 1)).read ".repo/state/current.json"
      = some "old" ∧
    (applyOps c5fs ((set_current_phase_ops ".repo/state/.current.a1.tmp"
        ".repo/state/current.json" "new").take 1)).pathExists
        ".repo/state/.current.a1.tmp" = true ∧
    (applyOps (applyOps c5fs ((set_current_phase_ops ".repo/state/.current.a1.tmp"
        ".repo/state/current.json" "new").take 1))
      (set_current_phase_ops ".repo/state/.current.b2.tmp"
        ".repo/state/current.json" "new2")).pathExists
        ".repo/state/.current.a1.tmp" = true := by
  decide

/-- C5 (amended): for the temp-file-then-rename writers, a failure after
the temp write and before the rename leaves the target file's content
unchanged, but the temporary file is left behind rather than removed, and
it survives a later successful write that uses a fresh temp name; the
uninterrupted write installs the new content and leaves no temp file. -/
theorem atomic_write_all_or_nothing (fs : FS) (tmp target content : String)
    (h : tmp ≠ target) :
    (applyOps fs ((set_current_phase_ops tmp target content).take 1)).read target
      = fs.read target ∧
    (applyOps fs ((set_current_phase_ops tmp target content).take 1)).read tmp
      = some content ∧
    (applyOps fs (set_current_phase_ops tmp target content)).read target
      = some content ∧
    (applyOps fs (set_current_phase_ops tmp target content)).read tmp = none ∧
    (∀ tmp₂ c₂, tmp₂ ≠ target → tmp₂ ≠ tmp →
      (applyOps (applyOps fs ((set_current_phase_ops tmp target content).take 1))
        (set_current_phase_ops tmp₂ target c₂)).read tmp = some content ∧
      (applyOps (applyOps fs ((set_current_phase_ops tmp target content).take 1))
        (set_current_phase_ops tmp₂ target c₂)).read target = some c₂) := by
  simp only [set_current_phase_ops, List.take, applyOps, List.foldl]
  refine ⟨?_, ?_, ?_, ?_, ?_⟩
  · exact read_applyOp_write_other _ _ _ _ (Ne.symm h)
  · exact read_applyOp_write_self _ _ _
  · exact read_rename_dst _ _ _ content (read_applyOp_write_self fs tmp content)
  · exact read_rename_src _ _ _ content (read_applyOp_write_self fs tmp content) h
  · intro tmp₂ c₂ h₂t h₂tmp
    constructor
    · rw [read_rename_other _ _ _ _ h (Ne.symm h₂tmp),
        read_applyOp_write_other _ _ _ _ (Ne.symm h₂tmp)]
      exact read_applyOp_write_self _ _ _
    · exact read_rename_dst _ _ _ c₂ (read_applyOp_write_self _ tmp₂ c₂)

/-- Witness for C5 (amended): concrete failure injection on the
current-phase pointer. -/
theorem atomic_write_all_or_nothing_witness :
    (applyOps c5fs ((set_current_phase_ops ".repo/state/.current.a1.tmp"
        ".repo/state/current.json" "new").take 1)).read ".repo/state/current.json"
      = c5fs.read ".repo/state/current.json" ∧
    (applyOps c5fs ((set_current_phase_ops ".repo/state/.current.a1.tmp"
        ".repo/state/current.json" "new").take 1)).read
        ".repo/state/.current.a1.tmp" = some "new" :=
  let h := atomic_write_all_or_nothing c5fs ".repo/state/.current.a1.tmp"
    ".repo/state/current.json" "new" (by decide)
  ⟨h.1, h.2.1⟩

/-! ## Drift gate (`tools/judge.py`, `check_drift` lines 324-448)

String predicates below model the Python operators `startswith`,
`endswith` and `in` over characters. -/

/-- Whether the first character list is a prefix of the second. -/
def listPrefix : List Char → List Char → Bool
  | [], _ => true
  | _ :: _, [] => false
  | a :: as, b :: bs => a = b && listPrefix as bs

/-- Python `s.startswith(pre)`. -/
def strStartsWith (s pre : String) : Bool := listPrefix pre.toList s.toList

/-- Python `s.endswith(suf)`. -/
def strEndsWith (s suf : String) : Bool :=
  listPrefix suf.toList.reverse s.toList.reverse

/-- Whether the needle occurs as a contiguous sublist. -/
def listInfix (needle : List Char) : List Char → Bool
  | [] => listPrefix needle []
  | c :: cs => listPrefix needle (c :: cs) || listInfix needle cs

/-- Python `sub in s`. -/
def strContains (s sub : String) : Bool := listInfix sub.toList s.toList

/-- `is_legitimate_change` from `tools/judge.py` (lines 266-275). -/
def is_legitimate_change (f : String) : Bool :=
  strStartsWith f "tools/" || strStartsWith f ".repo/" ||
  (strEndsWith f ".py" && strContains f "test") ||
  strEndsWith f ".md" || strEndsWith f ".rst" ||
  f == "requirements.txt" || f == "pyproject.toml" || f == "setup.py" ||
  (strEndsWith f ".py" && strContains f "src/")

/-- `is_legitimate_change_with_context` from `tools/judge.py` (lines
278-321).  The basic classification short-circuits first; the remaining
git-querying branch is guarded by "`.py` file with `src/` in the path",
which the basic classification already accepts, so that branch is
unreachable and the function is pure: every non-basic file falls through
to `return False`. -/
def is_legitimate_change_with_context (f : String) : Bool :=
  if is_legitimate_change f then true else false

lemma with_context_eq_basic (f : String) :
    is_legitimate_change_with_context f = is_legitimate_change f := by
  unfold is_legitimate_change_with_context
  split <;> simp_all

/-- `classify_drift_intelligence` from `tools/judge.py` (lines 252-263):
split out-of-scope files into `(legitimate, rogue)`. -/
def classify_drift_intelligence : List String → List String × List String
  | [] => ([], [])
  | f :: rest =>
    let (legit, rogue) := classify_drift_intelligence rest
    if is_legitimate_change_with_context f then (f :: legit, rogue)
    else (legit, f :: rogue)

/-- Header line of the out-of-scope issue block. -/
def driftHeader (n allowed : Nat) : String :=
  "Out-of-scope changes detected (" ++ toString n ++ " unauthorized files, " ++
    toString allowed ++ " allowed):"

/-- A file line within an issue block. -/
def fileEntry (f : String) : String := "  - " ++ f

/-- Header line of the forbidden-files issue block. -/
def forbiddenHeader : String :=
  "Forbidden files changed (these require a separate phase):"

/-- The drift gate configuration (`phase.gates.drift`). -/
structure DriftCfg where
  allowed_out_of_scope_changes : Nat
  deriving DecidableEq

/-- Inputs of `check_drift`, modelled for the default configuration in
which the experimental `replay_budget` feature is off (the experimental
two-tier path and the budget-charging calls are then skipped; the
maintenance-burst probe only prints).  The remediation lists stand for the
git-state-dependent text of `_generate_forbidden_remediation` and
`_generate_drift_remediation`. -/
structure DriftEnv where
  driftGate : Option DriftCfg
  changed : List String
  includePatterns : List String
  excludePatterns : List String
  forbidPatterns : List String
  forbiddenRemediation : List String
  driftRemediation : List String

/-- `check_drift` from `tools/judge.py` (lines 324-448): no issues when
the gate is unconfigured, nothing changed, or no include scope is defined;
otherwise the forbidden-files block followed by the out-of-scope block,
the latter counting only rogue files against the allowance. -/
def check_drift (env : DriftEnv) : List String :=
  match env.driftGate with
  | none => []
  | some cfg =>
    if env.changed.isEmpty then []
    else if env.includePatterns.isEmpty then []
    else
      let outer := (classify_files env.changed env.includePatterns
        env.excludePatterns).2
      let forbidden := check_forbidden_files env.changed env.forbidPatterns
      let forbiddenIssues :=
        if forbidden.isEmpty then []
        else forbiddenHeader ::
          (forbidden.map fileEntry ++ env.forbiddenRemediation ++ [""])
      let outIssues :=
        if outer.isEmpty then []
        else
          let rogue := (classify_drift_intelligence outer).2
          if rogue.length > cfg.allowed_out_of_scope_changes then
            driftHeader rogue.length cfg.allowed_out_of_scope_changes ::
              (rogue.map fileEntry ++ [""] ++ env.driftRemediation)
          else []
      forbiddenIssues ++ outIssues

/-- The forbidden-files block of `check_drift`, as a function of the
changed files and forbidden patterns alone. -/
def forbiddenIssuesOf (env : DriftEnv) : List String :=
  let forbidden := check_forbidden_files env.changed env.forbidPatterns
  if forbidden.isEmpty then []
  else forbiddenHeader ::
    (forbidden.map fileEntry ++ env.forbiddenRemediation ++ [""])

/-- The out-of-scope block of `check_drift`, as a function of the changed
files, scope patterns and allowance alone. -/
def outOfScopeIssuesOf (env : DriftEnv) (cfg : DriftCfg) : List String :=
  let outer := (classify_files env.changed env.includePatterns
    env.excludePatterns).2
  if outer.isEmpty then []
  else
    let rogue := (classify_drift_intelligence outer).2
    if rogue.length > cfg.allowed_out_of_scope_changes then
      driftHeader rogue.length cfg.allowed_out_of_scope_changes ::
        (rogue.map fileEntry ++ [""] ++ env.driftRemediation)
    else []

/-- The drift environment with its forbidden-check inputs replaced. -/
def DriftEnv.withForbid (env : DriftEnv) (F R : List String) : DriftEnv :=
  { env with forbidPatterns := F, forbiddenRemediation := R }

/-- The drift environment with its scope inputs replaced. -/
def DriftEnv.withScope (env : DriftEnv) (I E D : List String) : DriftEnv :=
  { env with includePatterns := I, excludePatterns := E, driftRemediation := D }

/-- Drift environment for the C9 counterexample: one out-of-scope file
that the intelligence classifier deems legitimate (a `.md` doc), with a
zero allowance. -/
def mdDriftEnv : DriftEnv :=
  { driftGate := some { allowed_out_of_scope_changes := 0 }
    changed := ["docs/readme.md"]
    includePatterns := ["src/*"]
    excludePatterns := []
    forbidPatterns := []
    forbiddenRemediation := []
    driftRemediation := [] }

/-- Counterexample for C9: the drift gate is enabled with allowance 0, the
include scope is non-empty, exactly one changed file is out of scope
(1 > 0), yet `check_drift` reports no issue at all, because the
out-of-scope file is classified legitimate and only rogue files are
counted against the allowance. -/
theorem drift_allowance_counterexample :
    mdDriftEnv.driftGate = some { allowed_out_of_scope_changes := 0 } ∧
    (classify_files mdDriftEnv.changed mdDriftEnv.includePatterns
        mdDriftEnv.excludePatterns).2 = ["docs/readme.md"] ∧
    check_drift mdDriftEnv = [] := by
  decide

/-- C9 (amended): with the drift gate enabled, a non-empty include scope
and a non-empty change set (default configuration, `replay_budget` off),
`check_drift` is the forbidden-files block followed by the out-of-scope
block; the out-of-scope block does not depend on the forbidden patterns
and vice versa; whenever the number of ROGUE out-of-scope files — those
not classified legitimate by `classify_drift_intelligence` — exceeds the
allowance, the result contains the out-of-scope header and one entry per
rogue file; legitimate out-of-scope files are never counted, and within
the allowance no out-of-scope issue is produced. -/
theorem drift_allowance (env : DriftEnv) (cfg : DriftCfg)
    (hg : env.driftGate = some cfg)
    (hch : env.changed ≠ [])
    (hinc : env.includePatterns ≠ []) :
    check_drift env = forbiddenIssuesOf env ++ outOfScopeIssuesOf env cfg ∧
    (∀ F R : List String,
      outOfScopeIssuesOf (env.withForbid F R) cfg = outOfScopeIssuesOf env cfg) ∧
    (∀ I E D : List String,
      forbiddenIssuesOf (env.withScope I E D) = forbiddenIssuesOf env) ∧
    ((classify_drift_intelligence
          ((classify_files env.changed env.includePatterns
            env.excludePatterns).2)).2.length
        > cfg.allowed_out_of_scope_changes →
      driftHeader
          (classify_drift_intelligence
            ((classify_files env.changed env.includePatterns
              env.excludePatterns).2)).2.length
          cfg.allowed_out_of_scope_changes ∈ check_drift env ∧
      ∀ f ∈ (classify_drift_intelligence
          ((classify_files env.changed env.includePatterns
            env.excludePatterns).2)).2,
        fileEntry f ∈ check_drift env) ∧
    (¬((classify_drift_intelligence
          ((classify_files env.changed env.includePatterns
            env.excludePatterns).2)).2.length
        > cfg.allowed_out_of_scope_changes) →
      outOfScopeIssuesOf env cfg = []) := by
  have hch' : env.changed.isEmpty = false := by
    rcases h : env.changed with _ | ⟨a, l⟩
    · exact absurd h hch
    · simp
  have hinc' : env.includePatterns.isEmpty = false := by
    rcases h : env.includePatterns with _ | ⟨a, l⟩
    · exact absurd h hinc
    · simp
  have hdec : check_drift env = forbiddenIssuesOf env ++ outOfScopeIssuesOf env cfg := by
    simp only [check_drift, forbiddenIssuesOf, outOfScopeIssuesOf, hg, hch', hinc']
    rfl
  refine ⟨hdec, fun F R => rfl, fun I E D => rfl, ?_, ?_⟩
  · intro hr
    have houter : (classify_files env.changed env.includePatterns
        env.excludePatterns).2 ≠ [] := by
      intro he
      rw [he] at hr
      exact Nat.not_lt_zero _ hr
    have houter' : ((classify_files env.changed env.includePatterns
        env.excludePatterns).2).isEmpty = false := by
      rcases h : (classify_files env.changed env.includePatterns
          env.excludePatterns).2 with _ | ⟨a, l⟩
      · exact absurd h houter
      · simp
    have hout : outOfScopeIssuesOf env cfg
        = driftHeader
            (classify_drift_intelligence
              ((classify_files env.changed env.includePatterns
                env.excludePatterns).2)).2.length
            cfg.allowed_out_of_scope_changes ::
          ((classify_drift_intelligence
              ((classify_files env.changed env.includePatterns
                env.excludePatterns).2)).2.map fileEntry ++ [""] ++
            env.driftRemediation) := by
      simp only [outOfScopeIssuesOf, houter', Bool.false_eq_true, if_false, hr,
        if_true]
    constructor
    · rw [hdec, hout]
      exact List.mem_append_right _ (List.mem_cons_self _ _)
    · intro f hf
      rw [hdec, hout]
      refine List.mem_append_right _ (List.mem_cons_of_mem _ ?_)
      exact List.mem_append_left _
        (List.mem_append_left _ (List.mem_map_of_mem fileEntry hf))
  · intro hr
    simp [outOfScopeIssuesOf, hr]

/-- Drift environment with two rogue out-of-scope files and allowance 0. -/
def rogueDriftEnv : DriftEnv :=
  { driftGate := some { allowed_out_of_scope_changes := 0 }
    changed := ["lib/a.js", "lib/b.js"]
    includePatterns := ["src/*"]
    excludePatterns := []
    forbidPatterns := []
    forbiddenRemediation := []
    driftRemediation := [] }

/-- Witness for C9 (amended): two rogue files over a zero allowance yield
the out-of-scope header and an entry per rogue file. -/
theorem drift_allowance_witness :
    driftHeader 2 0 ∈ check_drift rogueDriftEnv ∧
    fileEntry "lib/a.js" ∈ check_drift rogueDriftEnv := by
  have h := (drift_allowance rogueDriftEnv { allowed_out_of_scope_changes := 0 }
    rfl (by decide) (by decide)).2.2.2.1 (by decide)
  exact ⟨h.1, h.2 "lib/a.js" (by decide)⟩

end JudgeGated
